import Mathlib

/-!
Verification development for the MRIStep multirate-infinitesimal time stepper
(`src/arkode/arkode_mristep.c`).  The C routines are shallowly embedded as
Lean functions over exact rationals (`ℚ` stands in for the C `realtype`);
vectors are modelled componentwise as functions `ℕ → ℚ`, and the fused vector
kernels (`N_VLinearCombination`, `N_VLinearSum`, ...) as the pointwise linear
combinations they compute.  Callbacks (user RHS functions, the inner stepper's
operations, the host interpolation predictors, the nonlinear solver) are
parameters of the model, mirroring the C function-pointer tables.
-/

/-- Componentwise model of an `N_Vector`. -/
def Vec : Type := ℕ → ℚ

/-- The all-zero vector. -/
def zeroVec : Vec := fun _ => 0

/-- Modelled from the spec: the `ARK_*` return codes live in `arkode.h`,
which is not part of the sources; the spec's error taxonomy (§7) lists them as
distinct kinds, with recoverable codes positive and unrecoverable codes
negative.  Values follow the SUNDIALS 5.x header. -/
def ARK_SUCCESS : Int := 0

/-- Modelled from the spec: unrecoverable linear-solver init failure code. -/
def ARK_LINIT_FAIL : Int := -5

/-- Modelled from the spec: unrecoverable slow-RHS failure code. -/
def ARK_RHSFUNC_FAIL : Int := -8

/-- Modelled from the spec: unrecoverable code for a recoverable-looking RHS
error that cannot be handled (`UNREC_RHSFUNC_ERR` in the taxonomy). -/
def ARK_UNREC_RHSFUNC_ERR : Int := -11

/-- Modelled from the spec: allocation failure code. -/
def ARK_MEM_FAIL : Int := -20

/-- Modelled from the spec: missing-handle code (`MEM_NULL`). -/
def ARK_MEM_NULL : Int := -21

/-- Modelled from the spec: invalid argument or configuration (`ILL_INPUT`). -/
def ARK_ILL_INPUT : Int := -22

/-- Modelled from the spec: vector-kernel failure code. -/
def ARK_VECTOROP_ERR : Int := -29

/-- Modelled from the spec: nonlinear-solver init failure code. -/
def ARK_NLS_INIT_FAIL : Int := -30

/-- Modelled from the spec: unrecoverable nonlinear-solver setup failure. -/
def ARK_NLS_SETUP_FAIL : Int := -31

/-- Modelled from the spec: recoverable nonlinear-solver setup failure. -/
def ARK_NLS_SETUP_RECVR : Int := -32

/-- Modelled from the spec: inner-stepper failure code. -/
def ARK_INNERSTEP_FAIL : Int := -35

/-- Modelled from the spec: outer-to-inner callback failure code. -/
def ARK_OUTERTOINNER_FAIL : Int := -36

/-- Modelled from the spec: inner-to-outer callback failure code. -/
def ARK_INNERTOOUTER_FAIL : Int := -37

/-- Modelled from the spec: stage-postprocessing failure code. -/
def ARK_POSTPROCESS_STAGE_FAIL : Int := -39

/-- Modelled from the spec: user stage-predictor failure code. -/
def ARK_USER_PREDICT_FAIL : Int := -40

/-- Modelled from the spec: coupling-table violation code (`INVALID_TABLE`). -/
def ARK_INVALID_TABLE : Int := -42

/-- Modelled from the spec: positive `TRY_AGAIN` sentinel returned by the DIRK
path so the host can reduce the step and retry (spec §7: recoverable codes are
positive); the literal value lives in `arkode_impl.h`, not in the sources. -/
def TRY_AGAIN : Int := 5

/-- Modelled from the spec: initialization type for a first `init` call
(`arkode_impl.h` is not in the sources). -/
def FIRST_INIT : Int := 0

/-- Modelled from the spec: initialization type for a reset. -/
def RESET_INIT : Int := 1

/-- Modelled from the spec: stage-type constant for an explicit stage with
fast evolution (values from `arkode_mristep_impl.h`, not in the sources;
only their distinctness and non-negativity matter). -/
def MRISTAGE_ERK_FAST : Int := 0

/-- Modelled from the spec: explicit stage without fast evolution. -/
def MRISTAGE_ERK_NOFAST : Int := 1

/-- Modelled from the spec: implicit stage without fast evolution. -/
def MRISTAGE_DIRK_NOFAST : Int := 2

/-- Modelled from the spec: solve-coupled implicit + fast stage (rejected). -/
def MRISTAGE_DIRK_FAST : Int := 3

/-- Modelled from the spec: full-RHS mode `START = 0` (spec §6). -/
def ARK_FULLRHS_START : Int := 0

/-- Modelled from the spec: full-RHS mode `END = 1` (spec §6). -/
def ARK_FULLRHS_END : Int := 1

/-- Modelled from the spec: full-RHS mode `OTHER = 2` (spec §6). -/
def ARK_FULLRHS_OTHER : Int := 2

/-- Modelled from the spec: `UNIT_ROUNDOFF` is double-precision machine
epsilon `2^-52` (`sundials_types.h` is not in the sources; the spec fixes
`tol = 100 · machine_epsilon`). -/
def UNIT_ROUNDOFF : ℚ := 1 / 2 ^ 52

/-- The tolerance `tol = RCONST(100.0)*UNIT_ROUNDOFF` used by
`mriStep_CheckCoupling` and `mriStep_StageType`. -/
def tol : ℚ := 100 * UNIT_ROUNDOFF

/-- The MRI coupling table (`MRIStepCoupling`): `nmat` coefficient matrices
`G[k][i][j]` (indices beyond the `stages × stages` extent are unused),
abscissae `c`, stage count and method/embedding orders `q`, `p`. -/
structure MRIStepCoupling where
  nmat : ℕ
  stages : ℕ
  q : Int
  p : Int
  c : ℕ → ℚ
  G : ℕ → ℕ → ℕ → ℚ

/-- `N_VLinearCombination(nvec, c, X, z)`: `z = Σ_{j<nvec} c[j]·X[j]`,
componentwise (the kernel's failure return is not modelled: the model's
vectors always exist). -/
def N_VLinearCombination (nvec : ℕ) (cv : ℕ → ℚ) (X : ℕ → Vec) : Vec :=
  fun x => ∑ j in Finset.range nvec, cv j * X j x

/-- `mriStep_StageType(MRIC, is)`: classify stage `is` from the diagonal mass
`Σ_k |G[k][is][is]|` and the abscissa increment `c[is] − c[is−1]`; stages
outside `[1, stages−1]` yield `ARK_INVALID_TABLE`. -/
def mriStep_StageType (MRIC : MRIStepCoupling) (is : ℕ) : Int :=
  if is < 1 ∨ MRIC.stages ≤ is then ARK_INVALID_TABLE
  else
    let Gabs := ∑ i in Finset.range MRIC.nmat, |MRIC.G i is is|
    let cdiff := MRIC.c is - MRIC.c (is - 1)
    if Gabs > tol then
      if cdiff > tol then MRISTAGE_DIRK_FAST else MRISTAGE_DIRK_NOFAST
    else
      if cdiff > tol then MRISTAGE_ERK_FAST else MRISTAGE_ERK_NOFAST

/-- `mriStep_RKCoeffs(MRIC, is, Arow)`: the effective RK row for stage `is`:
zero the row, then add `G[k][is][j]/(k+1)` for `j ≤ is` and every `k`; the
row has length `stages`.  Stage indices outside `[1, stages−1]` return
`ARK_INVALID_TABLE` without touching the row (the model returns the zero
row in that case). -/
def mriStep_RKCoeffs (MRIC : MRIStepCoupling) (is : ℕ) : Int × (ℕ → ℚ) :=
  if is < 1 ∨ MRIC.stages ≤ is then (ARK_INVALID_TABLE, fun _ => 0)
  else
    (ARK_SUCCESS, fun j =>
      if j < MRIC.stages ∧ j ≤ is then
        ∑ k in Finset.range MRIC.nmat, MRIC.G k is j * (1 / ((k : ℚ) + 1))
      else 0)

/-- `mriStep_CheckCoupling`: the seven validation rules, in program order;
the first failure yields `ARK_INVALID_TABLE`.  `step_mem->stages` equals
`MRIC->stages` at this point (set by `mriStep_SetCoupling`), so the model
reads all extents from the table. -/
def mriStep_CheckCoupling (MRIC : MRIStepCoupling) (fixedstep : Bool) : Int :=
  if MRIC.stages < 1 then ARK_INVALID_TABLE
  else if MRIC.q < 1 then ARK_INVALID_TABLE
  else if MRIC.p < 1 ∧ fixedstep = false then ARK_INVALID_TABLE
  else if (∑ k in Finset.range MRIC.nmat, ∑ i in Finset.range MRIC.stages,
             ∑ j in Finset.Ico (i + 1) MRIC.stages, |MRIC.G k i j|) > tol then
    ARK_INVALID_TABLE
  else if ((List.range MRIC.stages).any
             fun i => mriStep_StageType MRIC i == MRISTAGE_DIRK_FAST) then
    ARK_INVALID_TABLE
  else if ((List.range' 1 (MRIC.stages - 1)).any
             fun i => decide (MRIC.c i - MRIC.c (i - 1) < -tol)) then
    ARK_INVALID_TABLE
  else if (|MRIC.c 0| + ∑ k in Finset.range MRIC.nmat,
             ∑ j in Finset.range MRIC.stages, |MRIC.G k 0 j|) > tol then
    ARK_INVALID_TABLE
  else if |1 - MRIC.c (MRIC.stages - 1)| > tol then ARK_INVALID_TABLE
  else ARK_SUCCESS

/-- `mriStep_ComputeInnerForcing(step_mem, i, cdiff)`: for each `k < nmat`,
`forcing[k] = Σ_{j<i} (1/cdiff)·G[k][i][j]·F[j]` via one fused linear
combination; entries `k ≥ nmat` of the forcing array are untouched. -/
def mriStep_ComputeInnerForcing (MRIC : MRIStepCoupling) (F : ℕ → Vec)
    (forcing0 : ℕ → Vec) (i : ℕ) (cdiff : ℚ) : ℕ → Vec :=
  let rcdiff := 1 / cdiff
  fun k =>
    if k < MRIC.nmat then
      N_VLinearCombination i (fun j => rcdiff * MRIC.G k i j) F
    else forcing0 k

/-- A valid two-stage explicit coupling table used as a concrete test input:
`c = (0, 1)`, one coefficient matrix with `G[0][1][0] = 1`. -/
def table2 : MRIStepCoupling where
  nmat := 1
  stages := 2
  q := 1
  p := 1
  c := fun i => if i = 1 then 1 else 0
  G := fun k i j => if k = 0 ∧ i = 1 ∧ j = 0 then 1 else 0

/-- A valid three-stage explicit (MIS-style) coupling table used as a
concrete test input: `c = (0, 1/2, 1)`, `G[0][1][0] = G[0][2][1] = 1/2`. -/
def tableMIS : MRIStepCoupling where
  nmat := 1
  stages := 3
  q := 3
  p := 0
  c := fun i => if i = 1 then 1 / 2 else if i = 2 then 1 else 0
  G := fun k i j =>
    if k = 0 ∧ i = 1 ∧ j = 0 then 1 / 2
    else if k = 0 ∧ i = 2 ∧ j = 1 then 1 / 2 else 0

/-- A coupling table violating only the last-abscissa rule:
`c = (0, 9/10)`, all coupling coefficients zero. -/
def tableLast : MRIStepCoupling where
  nmat := 1
  stages := 2
  q := 1
  p := 1
  c := fun i => if i = 1 then 9 / 10 else 0
  G := fun _ _ _ => 0

/-- A coupling table whose strictly upper-triangular entries are each within
`tol` individually (`60/2^52 ≤ 100/2^52`) while their aggregate absolute sum
`120/2^52` exceeds `tol`; all other validation rules hold. -/
def tableTri : MRIStepCoupling where
  nmat := 2
  stages := 3
  q := 1
  p := 1
  c := fun i => if i = 2 then 1 else 0
  G := fun _ i j => if i = 1 ∧ j = 2 then 60 / 2 ^ 52 else 0

/-- `mriStep_Init(arkode_mem, init_type)`: the return-value skeleton of the
init routine for a user-supplied coupling table.  `mriStep_SetCoupling`
returns success when a table is already attached; the memory allocations
(stage vectors, fused-op scratch, inner forcing) cannot fail in the model and
the error-weight bookkeeping does not affect the return value.  The host
interpolation-degree update, `linit` and the nonlinear-solver init are
callbacks, modelled by their optional return codes. -/
def mriStep_Init (MRIC : MRIStepCoupling) (fixedstep : Bool)
    (interpDegreeRet : Option Int) (linitRet : Option Int)
    (nlsInitRet : Option Int) (init_type : Int) : Int :=
  if init_type = RESET_INIT then ARK_SUCCESS
  else
    let firstRet : Int :=
      if init_type = FIRST_INIT then
        if fixedstep = false then ARK_ILL_INPUT
        else if mriStep_CheckCoupling MRIC fixedstep ≠ ARK_SUCCESS then
          ARK_ILL_INPUT
        else
          match interpDegreeRet with
          | some r => if r ≠ ARK_SUCCESS then ARK_ILL_INPUT else ARK_SUCCESS
          | none => ARK_SUCCESS
      else ARK_SUCCESS
    if firstRet ≠ ARK_SUCCESS then firstRet
    else
      let nlsPart : Int :=
        match nlsInitRet with
        | some r => if r ≠ ARK_SUCCESS then ARK_NLS_INIT_FAIL else ARK_SUCCESS
        | none => ARK_SUCCESS
      match linitRet with
      | some r => if r ≠ 0 then ARK_LINIT_FAIL else nlsPart
      | none => nlsPart

/-- Host-side context consumed by `mriStep_Predict`: the interpolation
structure (modelled by its presence), the predictor setting, the host's
`initsetup` flag, the previous solution `yn`, the current and previous step
sizes, and the coupling table.  The host interpolation predictors
(`arkPredict_MaximumOrder`, `arkPredict_VariableOrder`,
`arkPredict_CutoffOrder`, `arkPredict_Bootstrap`) live in the host framework
(`arkode_interp.c`, not part of the sources) and are modelled as opaque
parameter functions from the evaluation time(s) to a return flag and the
predicted vector. -/
structure PredictEnv where
  MRIC : MRIStepCoupling
  interp : Option Unit
  predictor : Int
  initsetup : Bool
  yn : Vec
  h : ℚ
  hold : ℚ
  arkPredict_MaximumOrder : ℚ → Int × Vec
  arkPredict_VariableOrder : ℚ → Int × Vec
  arkPredict_CutoffOrder : ℚ → Int × Vec
  arkPredict_Bootstrap : ℚ → ℚ → Vec → Int × Vec

/-- The bootstrap-stage search of predictor 4: first the last in-step stage
`i < istage` with `c[i] ≠ 0` (or none), then the stage with the largest
nonzero abscissa among them. -/
def mriStep_bootstrapStage (MRIC : MRIStepCoupling) (istage : ℕ) : Option ℕ :=
  let js1 := (List.range istage).foldl
    (fun js i => if MRIC.c i ≠ 0 then some i else js) none
  match js1 with
  | none => none
  | some j0 =>
    some ((List.range istage).foldl
      (fun js i => if MRIC.c i > MRIC.c js ∧ MRIC.c i ≠ 0 then i else js) j0)

/-- `mriStep_Predict(ark_mem, istage, yguess)`: the implicit-stage predictor.
The interpolation-structure presence check precedes everything; on the first
step (or after a resize, `initsetup`) the previous solution `yn` is returned;
otherwise the requested predictor formula runs, falling back to the trivial
predictor on `ARK_ILL_INPUT`.  `yguess` is the caller's buffer, returned
unchanged on the early `ARK_MEM_NULL` exit. -/
def mriStep_Predict (env : PredictEnv) (F : ℕ → Vec) (istage : ℕ)
    (yguess : Vec) : Int × Vec :=
  if env.interp.isNone ∧ env.predictor > 0 then (ARK_MEM_NULL, yguess)
  else if env.initsetup then (ARK_SUCCESS, env.yn)
  else
    let tau := env.MRIC.c istage * env.h / env.hold
    if env.predictor = 1 then
      let r := env.arkPredict_MaximumOrder tau
      if r.1 ≠ ARK_ILL_INPUT then r else (ARK_SUCCESS, env.yn)
    else if env.predictor = 2 then
      let r := env.arkPredict_VariableOrder tau
      if r.1 ≠ ARK_ILL_INPUT then r else (ARK_SUCCESS, env.yn)
    else if env.predictor = 3 then
      let r := env.arkPredict_CutoffOrder tau
      if r.1 ≠ ARK_ILL_INPUT then r else (ARK_SUCCESS, env.yn)
    else if env.predictor = 4 then
      match mriStep_bootstrapStage env.MRIC istage with
      | none => (ARK_SUCCESS, env.yn)
      | some j =>
        let hloc := env.h * env.MRIC.c j
        let tauloc := env.h * env.MRIC.c istage
        let r := env.arkPredict_Bootstrap hloc tauloc (F j)
        if r.1 ≠ ARK_ILL_INPUT then r else (ARK_SUCCESS, env.yn)
    else (ARK_SUCCESS, env.yn)

/-- A concrete predictor environment with the interpolation structure
present, predictor 4, and `initsetup` set. -/
def predEnvA : PredictEnv where
  MRIC := tableMIS
  interp := some ()
  predictor := 4
  initsetup := true
  yn := fun _ => 7
  h := 1
  hold := 1
  arkPredict_MaximumOrder := fun _ => (ARK_ILL_INPUT, zeroVec)
  arkPredict_VariableOrder := fun _ => (ARK_ILL_INPUT, zeroVec)
  arkPredict_CutoffOrder := fun _ => (ARK_ILL_INPUT, zeroVec)
  arkPredict_Bootstrap := fun _ _ _ => (ARK_ILL_INPUT, zeroVec)

/-- The same environment as `predEnvA` but with the interpolation structure
absent and predictor 1. -/
def predEnvB : PredictEnv :=
  { predEnvA with interp := none, predictor := 1 }

/-- The pieces of host state read and written by `mriStep_FullRHS`: the
stage-RHS vector `F[0]`, the host scratch vector `tempv2`, and the slow-RHS
counter `nfs`. -/
structure FullRhsState where
  F0 : Vec
  tempv2 : Vec
  nfs : ℕ

/-- `mriStep_FullRHS(arkode_mem, t, y, f, mode)`: recompute
`f = fs(t,y) + ff(t,y)`.  `fs` is the user slow RHS (returning its C status
and the vector it writes); `ff` models the inner stepper's
`mriStepInnerStepper_FullRhs`, which the code always invokes with mode
`ARK_FULLRHS_OTHER`, writing the fast RHS into `f`.  Modes `START`/`END`
store the slow RHS in `F[0]`; mode `OTHER` stores it in the host scratch
`tempv2`; any other mode fails with `ARK_RHSFUNC_FAIL`.  `f` is the caller's
output buffer, returned as the third component. -/
def mriStep_FullRHS (fs ff : ℚ → Vec → Int × Vec) (st : FullRhsState)
    (t : ℚ) (y : Vec) (f : Vec) (mode : Int) : Int × FullRhsState × Vec :=
  if mode = ARK_FULLRHS_START then
    let r1 := fs t y
    let st1 : FullRhsState := { st with F0 := r1.2, nfs := st.nfs + 1 }
    if r1.1 ≠ 0 then (ARK_RHSFUNC_FAIL, st1, f)
    else
      let r2 := ff t y
      if r2.1 ≠ ARK_SUCCESS then (ARK_RHSFUNC_FAIL, st1, r2.2)
      else (ARK_SUCCESS, st1, fun x => st1.F0 x + r2.2 x)
  else if mode = ARK_FULLRHS_END then
    let r1 := fs t y
    let st1 : FullRhsState := { st with F0 := r1.2, nfs := st.nfs + 1 }
    if r1.1 ≠ 0 then (ARK_RHSFUNC_FAIL, st1, f)
    else
      let r2 := ff t y
      if r2.1 ≠ ARK_SUCCESS then (ARK_RHSFUNC_FAIL, st1, r2.2)
      else (ARK_SUCCESS, st1, fun x => st1.F0 x + r2.2 x)
  else if mode = ARK_FULLRHS_OTHER then
    let r1 := fs t y
    let st1 : FullRhsState := { st with tempv2 := r1.2, nfs := st.nfs + 1 }
    if r1.1 ≠ 0 then (ARK_RHSFUNC_FAIL, st1, f)
    else
      let r2 := ff t y
      if r2.1 ≠ ARK_SUCCESS then (ARK_RHSFUNC_FAIL, st1, r2.2)
      else (ARK_SUCCESS, st1, fun x => st1.tempv2 x + r2.2 x)
  else (ARK_RHSFUNC_FAIL, st, f)

/-- The inner stepper's forcing state: time normalization `tshift`/`tscale`,
the forcing vectors, their count, and the last returned flag. -/
structure InnerStepper where
  tshift : ℚ
  tscale : ℚ
  forcing : ℕ → Vec
  nforcing : ℕ
  lastFlag : Int

/-- The mutable state threaded through one `mriStep_TakeStep`: the current
solution and stage time, the stage slow-RHS vectors `F`, the `nfs` counter,
the inner stepper, the DIRK scratch (`rkcoeffs`, `zpred`, `sdata`, gamma
bookkeeping, `istage`), plus three instrumentation logs recording the return
values of the slow-RHS calls made by the step, the inner-stepper reset-op
invocations (stage, time, state), and the completed stages (stage, time,
post-processed solution). -/
structure StepState where
  ycur : Vec
  tcur : ℚ
  F : ℕ → Vec
  nfs : ℕ
  stepper : InnerStepper
  rkcoeffs : ℕ → ℚ
  zpred : Vec
  sdata : Vec
  gamma : ℚ
  gammap : ℚ
  gamrat : ℚ
  istage : ℕ
  fsRets : List Int
  resetLog : List (ℕ × ℚ × Vec)
  stageLog : List (ℕ × ℚ × Vec)

/-- The environment of one `mriStep_TakeStep`: everything the step reads but
does not modify.  `stagetypes` is the array precomputed by `mriStep_Init`;
`fs` is the user slow RHS; `evolve` is the inner stepper's evolve operation
(receiving the stepper state holding the forcing); `innerResetOp` is the
optional reset operation; `processStage`, `pre_inner_evolve`,
`post_inner_evolve` and `stage_predict` are the optional user callbacks;
`nlsSetupRet` is the return of `SUNNonlinSolSetup` when a nonlinear solver
with a setup operation is attached; `nls` is modelled from the spec: the
nonlinear solve of `mriStep_Nls` (in `arkode_mristep_nls.c`, not part of the
sources), which solves the DIRK residual and deposits the result in `ycur`,
returning its convergence flag. -/
structure StepEnv extends PredictEnv where
  stagetypes : ℕ → Int
  tn : ℚ
  fs : ℚ → Vec → Int × Vec
  evolve : InnerStepper → ℚ → ℚ → Vec → Int × Vec
  innerResetOp : Option (ℚ → Vec → Int)
  processStage : Option (ℚ → Vec → Int × Vec)
  pre_inner_evolve : Option (ℚ → (ℕ → Vec) → ℕ → Int)
  post_inner_evolve : Option (ℚ → Vec → Int)
  stage_predict : Option (ℚ → Vec → Int × Vec)
  nlsSetupRet : Option Int
  nls : Int → StepState → Int × Vec
  implicitFlag : Bool
  firststage : Bool

/-- `mriStep_StageERKFast(ark_mem, step_mem, is)`: set `t0 = tn + c[is−1]·h`,
compute the inner forcing with `cdiff = c[is] − c[is−1]`, set the stepper's
`tshift`/`tscale`, run the optional `pre_inner_evolve`, evolve the inner
stepper from `t0` to `tcur` (only negative returns fail), then the optional
`post_inner_evolve`. -/
def mriStep_StageERKFast (env : StepEnv) (s : StepState) (is : ℕ) :
    Int × StepState :=
  let t0 := env.tn + env.MRIC.c (is - 1) * env.h
  let cdiff := env.MRIC.c is - env.MRIC.c (is - 1)
  let forcing1 := mriStep_ComputeInnerForcing env.MRIC s.F s.stepper.forcing
    is cdiff
  let s1 : StepState := { s with stepper :=
    { s.stepper with forcing := forcing1, tshift := t0,
                     tscale := cdiff * env.h } }
  let preRet : Int :=
    match env.pre_inner_evolve with
    | some pre => pre t0 s1.stepper.forcing s1.stepper.nforcing
    | none => 0
  if preRet ≠ 0 then (ARK_OUTERTOINNER_FAIL, s1)
  else
    let er := env.evolve s1.stepper t0 s1.tcur s1.ycur
    let s2 : StepState :=
      { s1 with ycur := er.2, stepper := { s1.stepper with lastFlag := er.1 } }
    if er.1 < 0 then (ARK_INNERSTEP_FAIL, s2)
    else
      let postRet : Int :=
        match env.post_inner_evolve with
        | some post => post s2.tcur s2.ycur
        | none => 0
      if postRet ≠ 0 then (ARK_INNERTOOUTER_FAIL, s2)
      else (ARK_SUCCESS, s2)

/-- `mriStep_StageERKNoFast(ark_mem, step_mem, is)`: effective RK row via
`mriStep_RKCoeffs` (stored in `rkcoeffs`), then one fused update
`ycur ← 1·ycur + Σ_{j<is} (A_row[j]·h)·F[j]`. -/
def mriStep_StageERKNoFast (env : StepEnv) (s : StepState) (is : ℕ) :
    Int × StepState :=
  let rc := mriStep_RKCoeffs env.MRIC is
  if rc.1 ≠ ARK_SUCCESS then (rc.1, s)
  else
    let s1 : StepState := { s with rkcoeffs := rc.2 }
    let ynew := N_VLinearCombination (is + 1)
      (fun m => if m = 0 then 1 else s1.rkcoeffs (m - 1) * env.h)
      (fun m => if m = 0 then s1.ycur else s1.F (m - 1))
    (ARK_SUCCESS, { s1 with ycur := ynew })

/-- `mriStep_StageDIRKFast`: not implemented, returns `ARK_INVALID_TABLE`. -/
def mriStep_StageDIRKFast (env : StepEnv) (s : StepState) (is : ℕ) :
    Int × StepState :=
  (ARK_INVALID_TABLE, s)

/-- `mriStep_StageSetup(ark_mem)`: update the gamma bookkeeping (when the
method is implicit) and assemble the DIRK residual data
`sdata = ycur − zpred + h·Σ_{j<istage} A_row[j]·F[j]` in one fused
combination. -/
def mriStep_StageSetup (env : StepEnv) (s : StepState) : StepState :=
  let i := s.istage
  let Ai := s.rkcoeffs
  let gamma := env.h * Ai i
  let gammap := if env.firststage then gamma else s.gammap
  let gamrat := if env.firststage then 1 else gamma / gammap
  let s1 : StepState :=
    if env.implicitFlag then
      { s with gamma := gamma, gammap := gammap, gamrat := gamrat }
    else s
  let sdata : Vec := fun x =>
    s.ycur x - s.zpred x + ∑ j in Finset.range i, env.h * Ai j * s.F j x
  { s1 with sdata := sdata }

/-- `mriStep_StageDIRKNoFast(ark_mem, step_mem, is, nflagPtr)`: record the
stage index, predict (`mriStep_Predict`, refined by the optional user
`stage_predict`), build the effective row and the residual data, then hand
the solve to the nonlinear solver; any non-success of the solve returns the
`TRY_AGAIN` sentinel with the solver flag in `nflag`. -/
def mriStep_StageDIRKNoFast (env : StepEnv) (nflag : Int) (s : StepState)
    (is : ℕ) : Int × Int × StepState :=
  let s0 : StepState := { s with istage := is }
  let pr := mriStep_Predict env.toPredictEnv s0.F is s0.zpred
  let s1 : StepState := { s0 with zpred := pr.2 }
  if pr.1 ≠ ARK_SUCCESS then (pr.1, nflag, s1)
  else
    let sp : Int × StepState :=
      match env.stage_predict with
      | some f =>
        let r := f s1.tcur s1.zpred
        (r.1, { s1 with zpred := r.2 })
      | none => (0, s1)
    if sp.1 < 0 then (ARK_USER_PREDICT_FAIL, nflag, sp.2)
    else if sp.1 > 0 then (TRY_AGAIN, nflag, sp.2)
    else
      let rc := mriStep_RKCoeffs env.MRIC is
      if rc.1 ≠ ARK_SUCCESS then (rc.1, nflag, sp.2)
      else
        let s3 := mriStep_StageSetup env { sp.2 with rkcoeffs := rc.2 }
        let nr := env.nls nflag s3
        let s4 : StepState := { s3 with ycur := nr.2 }
        if nr.1 ≠ ARK_SUCCESS then (TRY_AGAIN, nr.1, s4)
        else (ARK_SUCCESS, nr.1, s4)

/-- `mriStepInnerStepper_Reset(stepper, tR, yR)`: call the reset operation
when the stepper provides one, otherwise succeed without a call. -/
def mriStepInnerStepper_Reset (resetOp : Option (ℚ → Vec → Int)) (tR : ℚ)
    (yR : Vec) : Int :=
  match resetOp with
  | some f => f tR yR
  | none => ARK_SUCCESS

/-- The user stage-postprocessing call of the take-step loop: when
`ProcessStage` is set, run it on (`tcur`, `ycur`) (it may modify `ycur`);
a nonzero return is `ARK_POSTPROCESS_STAGE_FAIL`. -/
def mriStep_applyProcessStage (env : StepEnv) (s : StepState) :
    Int × StepState :=
  match env.processStage with
  | none => (ARK_SUCCESS, s)
  | some ps =>
    let r := ps s.tcur s.ycur
    let s1 : StepState := { s with ycur := r.2 }
    if r.1 ≠ 0 then (ARK_POSTPROCESS_STAGE_FAIL, s1) else (ARK_SUCCESS, s1)

/-- The conditional inner-stepper reset of the take-step loop: when the
stage type is not `ERK_FAST` or a `ProcessStage` callback is set, reset the
inner stepper to (`tcur`, `ycur`); a non-success return is
`ARK_INNERSTEP_FAIL`.  Invocations of the reset operation are recorded in
`resetLog`. -/
def mriStep_conditionalReset (env : StepEnv) (is : ℕ) (s : StepState) :
    Int × StepState :=
  if env.stagetypes is ≠ MRISTAGE_ERK_FAST ∨ env.processStage.isSome then
    let r := mriStepInnerStepper_Reset env.innerResetOp s.tcur s.ycur
    let s1 : StepState :=
      if env.innerResetOp.isSome then
        { s with stepper := { s.stepper with lastFlag := r },
                 resetLog := s.resetLog ++ [(is, s.tcur, s.ycur)] }
      else s
    if r ≠ ARK_SUCCESS then (ARK_INNERSTEP_FAIL, s1) else (ARK_SUCCESS, s1)
  else (ARK_SUCCESS, s)

/-- The slow-RHS update closing each stage of the take-step loop: for every
stage but the last, evaluate `F[is] = fs(tcur, ycur)` and bump `nfs`; a
negative return is `ARK_RHSFUNC_FAIL`, a positive one
`ARK_UNREC_RHSFUNC_ERR`.  The returned status is recorded in `fsRets`. -/
def mriStep_stageFs (env : StepEnv) (is : ℕ) (s : StepState) :
    Int × StepState :=
  if is < env.MRIC.stages - 1 then
    let fr := env.fs s.tcur s.ycur
    let s1 : StepState :=
      { s with F := Function.update s.F is fr.2, nfs := s.nfs + 1,
               fsRets := s.fsRets ++ [fr.1] }
    if fr.1 < 0 then (ARK_RHSFUNC_FAIL, s1)
    else if fr.1 > 0 then (ARK_UNREC_RHSFUNC_ERR, s1)
    else (ARK_SUCCESS, s1)
  else (ARK_SUCCESS, s)

/-- The tail of one iteration of the take-step loop, after the stage
dispatch: propagate a stage failure, else postprocess, record the completed
stage in `stageLog`, conditionally reset the inner stepper, and evaluate the
next slow RHS. -/
def mriStep_stageFinish (env : StepEnv) (is : ℕ) (d : Int × Int × StepState) :
    Int × Int × StepState :=
  if d.1 ≠ ARK_SUCCESS then d
  else
    let p := mriStep_applyProcessStage env d.2.2
    if p.1 ≠ ARK_SUCCESS then (p.1, d.2.1, p.2)
    else
      let s3 : StepState :=
        { p.2 with stageLog := p.2.stageLog ++ [(is, p.2.tcur, p.2.ycur)] }
      let rr := mriStep_conditionalReset env is s3
      if rr.1 ≠ ARK_SUCCESS then (rr.1, d.2.1, rr.2)
      else
        let fr := mriStep_stageFs env is rr.2
        (fr.1, d.2.1, fr.2)

/-- The head of one iteration of the take-step loop for stage `is`: set
`tcur = tn + c[is]·h` and dispatch on `stagetypes[is]` (the C `switch` leaves
the prior success status for an unknown tag). -/
def mriStep_stageDispatch (env : StepEnv) (nflag : Int) (is : ℕ)
    (s : StepState) : Int × Int × StepState :=
  let s0 : StepState := { s with tcur := env.tn + env.MRIC.c is * env.h }
  if env.stagetypes is = MRISTAGE_ERK_FAST then
    let r := mriStep_StageERKFast env s0 is
    (r.1, nflag, r.2)
  else if env.stagetypes is = MRISTAGE_ERK_NOFAST then
    let r := mriStep_StageERKNoFast env s0 is
    (r.1, nflag, r.2)
  else if env.stagetypes is = MRISTAGE_DIRK_NOFAST then
    mriStep_StageDIRKNoFast env nflag s0 is
  else if env.stagetypes is = MRISTAGE_DIRK_FAST then
    let r := mriStep_StageDIRKFast env s0 is
    (r.1, nflag, r.2)
  else (ARK_SUCCESS, nflag, s0)

/-- One iteration of the take-step loop for stage `is`: the stage dispatch
followed by postprocessing, conditional reset and the next slow-RHS
evaluation. -/
def mriStep_stageBody (env : StepEnv) (nflag : Int) (is : ℕ) (s : StepState) :
    Int × Int × StepState :=
  mriStep_stageFinish env is (mriStep_stageDispatch env nflag is s)

/-- The instrumentation predicate of the reset contract: a completed stage
(recorded in the stage log) triggers an inner-stepper reset-operation call
exactly when its type is not `ERK_FAST` or a `ProcessStage` callback is set,
and the stepper provides a reset operation. -/
def resetQ (env : StepEnv) : ℕ × ℚ × Vec → Bool := fun e =>
  (decide (env.stagetypes e.1 ≠ MRISTAGE_ERK_FAST) || env.processStage.isSome)
    && env.innerResetOp.isSome

/-- The stage loop of `mriStep_TakeStep` over the listed stage indices; any
stage failure aborts the loop with that status. -/
def mriStep_stageLoop (env : StepEnv) : List ℕ → Int → StepState →
    Int × Int × StepState
  | [], nflag, s => (ARK_SUCCESS, nflag, s)
  | is :: rest, nflag, s =>
    let r := mriStep_stageBody env nflag is s
    if r.1 ≠ ARK_SUCCESS then r
    else mriStep_stageLoop env rest r.2.1 r.2.2

/-- `mriStep_TakeStep(arkode_mem, dsmPtr, nflagPtr)`: initialize `nflag` to
success and `dsm` to zero, run the nonlinear-solver setup when one is
attached (negative → `ARK_NLS_SETUP_FAIL`, positive →
`ARK_NLS_SETUP_RECVR`), then loop over stages `1 … stages−1`.  Returns
(status, `nflag`, `dsm`, final state). -/
def mriStep_TakeStep (env : StepEnv) (s : StepState) :
    Int × Int × ℚ × StepState :=
  let nflag0 := ARK_SUCCESS
  let dsm : ℚ := 0
  match env.nlsSetupRet with
  | some r =>
    if r < 0 then (ARK_NLS_SETUP_FAIL, nflag0, dsm, s)
    else if r > 0 then (ARK_NLS_SETUP_RECVR, nflag0, dsm, s)
    else
      let lr := mriStep_stageLoop env (List.range' 1 (env.MRIC.stages - 1))
        nflag0 s
      (lr.1, lr.2.1, dsm, lr.2.2)
  | none =>
    let lr := mriStep_stageLoop env (List.range' 1 (env.MRIC.stages - 1))
      nflag0 s
    (lr.1, lr.2.1, dsm, lr.2.2)

/-- A concrete take-step environment over `tableMIS`: both nontrivial stages
are `ERK_FAST` (as `mriStep_StageType` classifies them), the slow RHS and
all callbacks are trivial, no nonlinear solver is attached. -/
def baseEnv : StepEnv where
  MRIC := tableMIS
  interp := some ()
  predictor := 0
  initsetup := false
  yn := zeroVec
  h := 1
  hold := 1
  arkPredict_MaximumOrder := fun _ => (ARK_ILL_INPUT, zeroVec)
  arkPredict_VariableOrder := fun _ => (ARK_ILL_INPUT, zeroVec)
  arkPredict_CutoffOrder := fun _ => (ARK_ILL_INPUT, zeroVec)
  arkPredict_Bootstrap := fun _ _ _ => (ARK_ILL_INPUT, zeroVec)
  stagetypes := fun j =>
    if j = 1 then MRISTAGE_ERK_FAST
    else if j = 2 then MRISTAGE_ERK_FAST
    else ARK_INVALID_TABLE
  tn := 0
  fs := fun _ _ => (0, zeroVec)
  evolve := fun _ _ _ y => (ARK_SUCCESS, y)
  innerResetOp := none
  processStage := none
  pre_inner_evolve := none
  post_inner_evolve := none
  stage_predict := none
  nlsSetupRet := none
  nls := fun _ s => (ARK_SUCCESS, s.ycur)
  implicitFlag := false
  firststage := true

/-- `baseEnv` with a slow RHS that always reports a recoverable-looking
positive failure. -/
def envPosFs : StepEnv :=
  { baseEnv with fs := fun _ _ => (1, zeroVec) }

/-- `baseEnv` with stage 1 reclassified `ERK_NOFAST` and a recording inner
reset operation attached. -/
def envReset : StepEnv :=
  { baseEnv with
      stagetypes := fun j =>
        if j = 1 then MRISTAGE_ERK_NOFAST
        else if j = 2 then MRISTAGE_ERK_FAST
        else ARK_INVALID_TABLE,
      innerResetOp := some (fun _ _ => ARK_SUCCESS) }

/-- A neutral initial step state: zero solution, empty logs, `nfs = 0`. -/
def state0 : StepState where
  ycur := zeroVec
  tcur := 0
  F := fun _ => zeroVec
  nfs := 0
  stepper :=
    { tshift := 0, tscale := 0, forcing := fun _ => zeroVec,
      nforcing := 1, lastFlag := 0 }
  rkcoeffs := fun _ => 0
  zpred := zeroVec
  sdata := zeroVec
  gamma := 0
  gammap := 0
  gamrat := 0
  istage := 0
  fsRets := []
  resetLog := []
  stageLog := []

/-- `state0` with `F[0]` the constant-one vector. -/
def stateF : StepState :=
  { state0 with F := fun j => if j = 0 then (fun _ => 1) else zeroVec }

/-- A concrete slow RHS for exercising `mriStep_FullRHS`: always succeeds
with the constant-3 vector. -/
def fsW : ℚ → Vec → Int × Vec := fun _ _ => (0, fun _ => 3)

/-- A concrete inner (fast) full-RHS for exercising `mriStep_FullRHS`:
always succeeds with the constant-4 vector. -/
def ffW : ℚ → Vec → Int × Vec := fun _ _ => (ARK_SUCCESS, fun _ => 4)

/-- A neutral full-RHS state: zero vectors, `nfs = 0`. -/
def rhsState0 : FullRhsState where
  F0 := zeroVec
  tempv2 := zeroVec
  nfs := 0

/-- `table2` has no strictly upper-triangular mass. -/
theorem table2_lowerTri : ¬ ((∑ k in Finset.range table2.nmat,
    ∑ i in Finset.range table2.stages,
    ∑ j in Finset.Ico (i + 1) table2.stages, |table2.G k i j|) > tol) := by
  norm_num [table2, tol, UNIT_ROUNDOFF, Finset.sum_range_succ,
    Finset.sum_Ico_succ_top, Finset.Ico_self]

/-- `table2` has no solve-coupled DIRK+fast stage. -/
theorem table2_noDirkFast : ¬ (((List.range table2.stages).any
    fun i => mriStep_StageType table2 i == MRISTAGE_DIRK_FAST) = true) := by
  have hr : List.range table2.stages = [0, 1] := by decide
  have st0 : mriStep_StageType table2 0 = ARK_INVALID_TABLE := by
    rw [mriStep_StageType, if_pos (Or.inl (by decide))]
  have st1 : mriStep_StageType table2 1 = MRISTAGE_ERK_FAST := by
    norm_num [mriStep_StageType, table2, tol, UNIT_ROUNDOFF,
      MRISTAGE_ERK_FAST, Finset.sum_range_succ]
  rw [hr]
  simp only [List.any_cons, List.any_nil, st0, st1]
  decide

/-- `table2` has sorted abscissae. -/
theorem table2_sorted : ¬ (((List.range' 1 (table2.stages - 1)).any
    fun i => decide (table2.c i - table2.c (i - 1) < -tol)) = true) := by
  have hr : List.range' 1 (table2.stages - 1) = [1] := by decide
  rw [hr]
  simp only [List.any_cons, List.any_nil, Bool.or_false, decide_eq_true_eq]
  norm_num [table2, tol, UNIT_ROUNDOFF]

/-- The first stage of `table2` equals the old solution. -/
theorem table2_row0 : ¬ ((|table2.c 0| + ∑ k in Finset.range table2.nmat,
    ∑ j in Finset.range table2.stages, |table2.G k 0 j|) > tol) := by
  norm_num [table2, tol, UNIT_ROUNDOFF, Finset.sum_range_succ]

/-- The last abscissa of `table2` is 1. -/
theorem table2_lastc : ¬ (|1 - table2.c (table2.stages - 1)| > tol) := by
  norm_num [table2, tol, UNIT_ROUNDOFF]

/-- The concrete table `table2` passes every coupling check. -/
theorem table2_check : mriStep_CheckCoupling table2 true = ARK_SUCCESS := by
  rw [mriStep_CheckCoupling, if_neg (by decide), if_neg (by decide),
      if_neg (fun hc => absurd hc.2 (by decide)), if_neg table2_lowerTri,
      if_neg table2_noDirkFast, if_neg table2_sorted, if_neg table2_row0,
      if_neg table2_lastc]

/-- Stage 1 of `tableMIS` is explicit with fast evolution. -/
theorem tableMIS_stagetype1 :
    mriStep_StageType tableMIS 1 = MRISTAGE_ERK_FAST := by
  norm_num [mriStep_StageType, tableMIS, tol, UNIT_ROUNDOFF,
    MRISTAGE_ERK_FAST, Finset.sum_range_succ]

/-- Stage 2 of `tableMIS` is explicit with fast evolution. -/
theorem tableMIS_stagetype2 :
    mriStep_StageType tableMIS 2 = MRISTAGE_ERK_FAST := by
  norm_num [mriStep_StageType, tableMIS, tol, UNIT_ROUNDOFF,
    MRISTAGE_ERK_FAST, Finset.sum_range_succ]

/-- The concrete table `tableMIS` passes every coupling check. -/
theorem tableMIS_check : mriStep_CheckCoupling tableMIS true = ARK_SUCCESS := by
  have e1 : ¬ (tableMIS.stages < 1) := by decide
  have e2 : ¬ (tableMIS.q < 1) := by decide
  have e3 : ¬ (tableMIS.p < 1 ∧ (true : Bool) = false) := by decide
  have e4 : ¬ ((∑ k in Finset.range tableMIS.nmat,
      ∑ i in Finset.range tableMIS.stages,
      ∑ j in Finset.Ico (i + 1) tableMIS.stages, |tableMIS.G k i j|) > tol) := by
    norm_num [tableMIS, tol, UNIT_ROUNDOFF, Finset.sum_range_succ,
      Finset.sum_Ico_succ_top, Finset.Ico_self]
  have e5 : ¬ (((List.range tableMIS.stages).any
      fun i => mriStep_StageType tableMIS i == MRISTAGE_DIRK_FAST) = true) := by
    have hr : List.range tableMIS.stages = [0, 1, 2] := by decide
    have st0 : mriStep_StageType tableMIS 0 = ARK_INVALID_TABLE := by
      rw [mriStep_StageType, if_pos (Or.inl (by decide))]
    rw [hr]
    simp only [List.any_cons, List.any_nil, st0, tableMIS_stagetype1,
      tableMIS_stagetype2]
    decide
  have e6 : ¬ (((List.range' 1 (tableMIS.stages - 1)).any
      fun i => decide (tableMIS.c i - tableMIS.c (i - 1) < -tol)) = true) := by
    have hr : List.range' 1 (tableMIS.stages - 1) = [1, 2] := by decide
    rw [hr]
    simp only [List.any_cons, List.any_nil, Bool.or_false, decide_eq_true_eq]
    norm_num [tableMIS, tol, UNIT_ROUNDOFF]
  have e7 : ¬ ((|tableMIS.c 0| + ∑ k in Finset.range tableMIS.nmat,
      ∑ j in Finset.range tableMIS.stages, |tableMIS.G k 0 j|) > tol) := by
    norm_num [tableMIS, tol, UNIT_ROUNDOFF, Finset.sum_range_succ]
  have e8 : ¬ (|1 - tableMIS.c (tableMIS.stages - 1)| > tol) := by
    norm_num [tableMIS, tol, UNIT_ROUNDOFF]
  rw [mriStep_CheckCoupling, if_neg e1, if_neg e2, if_neg e3, if_neg e4,
      if_neg e5, if_neg e6, if_neg e7, if_neg e8]

/-- `tableLast` has no strictly upper-triangular mass. -/
theorem tableLast_lowerTri : ¬ ((∑ k in Finset.range tableLast.nmat,
    ∑ i in Finset.range tableLast.stages,
    ∑ j in Finset.Ico (i + 1) tableLast.stages, |tableLast.G k i j|) > tol) := by
  norm_num [tableLast, tol, UNIT_ROUNDOFF, Finset.sum_range_succ,
    Finset.sum_Ico_succ_top, Finset.Ico_self]

/-- `tableLast` has no solve-coupled DIRK+fast stage. -/
theorem tableLast_noDirkFast : ¬ (((List.range tableLast.stages).any
    fun i => mriStep_StageType tableLast i == MRISTAGE_DIRK_FAST) = true) := by
  have hr : List.range tableLast.stages = [0, 1] := by decide
  have st0 : mriStep_StageType tableLast 0 = ARK_INVALID_TABLE := by
    rw [mriStep_StageType, if_pos (Or.inl (by decide))]
  have st1 : mriStep_StageType tableLast 1 = MRISTAGE_ERK_FAST := by
    norm_num [mriStep_StageType, tableLast, tol, UNIT_ROUNDOFF,
      MRISTAGE_ERK_FAST, Finset.sum_range_succ]
  rw [hr]
  simp only [List.any_cons, List.any_nil, st0, st1]
  decide

/-- `tableLast` has sorted abscissae. -/
theorem tableLast_sorted : ¬ (((List.range' 1 (tableLast.stages - 1)).any
    fun i => decide (tableLast.c i - tableLast.c (i - 1) < -tol)) = true) := by
  have hr : List.range' 1 (tableLast.stages - 1) = [1] := by decide
  rw [hr]
  simp only [List.any_cons, List.any_nil, Bool.or_false, decide_eq_true_eq]
  norm_num [tableLast, tol, UNIT_ROUNDOFF]

/-- The first stage of `tableLast` equals the old solution. -/
theorem tableLast_row0 : ¬ ((|tableLast.c 0| + ∑ k in Finset.range tableLast.nmat,
    ∑ j in Finset.range tableLast.stages, |tableLast.G k 0 j|) > tol) := by
  norm_num [tableLast, tol, UNIT_ROUNDOFF, Finset.sum_range_succ]

/-- The last abscissa of `tableLast` is `9/10`, farther than `tol` from 1. -/
theorem tableLast_lastBad : |1 - tableLast.c (tableLast.stages - 1)| > tol := by
  have hv : (1 : ℚ) - tableLast.c (tableLast.stages - 1) = 1 / 10 := by
    norm_num [tableLast]
  rw [hv, abs_of_pos (by norm_num)]
  norm_num [tol, UNIT_ROUNDOFF]

/-- The concrete table `tableLast` fails the coupling checks (only the
last-abscissa rule is violated). -/
theorem tableLast_check :
    mriStep_CheckCoupling tableLast true = ARK_INVALID_TABLE := by
  rw [mriStep_CheckCoupling, if_neg (by decide), if_neg (by decide),
      if_neg (fun hc => absurd hc.2 (by decide)), if_neg tableLast_lowerTri,
      if_neg tableLast_noDirkFast, if_neg tableLast_sorted,
      if_neg tableLast_row0, if_pos tableLast_lastBad]

/-- The concrete table `tableTri` fails the coupling checks at the
lower-triangularity rule, although every strictly upper-triangular entry is
individually within `tol`. -/
theorem tableTri_check :
    mriStep_CheckCoupling tableTri true = ARK_INVALID_TABLE := by
  have e1 : ¬ (tableTri.stages < 1) := by decide
  have e2 : ¬ (tableTri.q < 1) := by decide
  have e3 : ¬ (tableTri.p < 1 ∧ (true : Bool) = false) := by decide
  have e4 : (∑ k in Finset.range tableTri.nmat,
      ∑ i in Finset.range tableTri.stages,
      ∑ j in Finset.Ico (i + 1) tableTri.stages, |tableTri.G k i j|) > tol := by
    have ha : |(15 : ℚ) / 1125899906842624| = 15 / 1125899906842624 :=
      abs_of_pos (by norm_num)
    norm_num [tableTri, tol, UNIT_ROUNDOFF, Finset.sum_range_succ,
      Finset.sum_Ico_succ_top, Finset.Ico_self, ha]
  rw [mriStep_CheckCoupling, if_neg e1, if_neg e2, if_neg e3, if_pos e4]

/-- `tableTri` has no solve-coupled DIRK+fast stage (stage 1 is
`ERK_NOFAST`, stage 2 is `ERK_FAST`). -/
theorem tableTri_noDirkFast : ¬ (((List.range tableTri.stages).any
    fun i => mriStep_StageType tableTri i == MRISTAGE_DIRK_FAST) = true) := by
  have hr : List.range tableTri.stages = [0, 1, 2] := by decide
  have st0 : mriStep_StageType tableTri 0 = ARK_INVALID_TABLE := by
    rw [mriStep_StageType, if_pos (Or.inl (by decide))]
  have st1 : mriStep_StageType tableTri 1 = MRISTAGE_ERK_NOFAST := by
    norm_num [mriStep_StageType, tableTri, tol, UNIT_ROUNDOFF,
      MRISTAGE_ERK_NOFAST, Finset.sum_range_succ]
  have st2 : mriStep_StageType tableTri 2 = MRISTAGE_ERK_FAST := by
    norm_num [mriStep_StageType, tableTri, tol, UNIT_ROUNDOFF,
      MRISTAGE_ERK_FAST, Finset.sum_range_succ]
  rw [hr]
  simp only [List.any_cons, List.any_nil, st0, st1, st2]
  decide

/-- `tableTri` has sorted abscissae. -/
theorem tableTri_sorted : ¬ (((List.range' 1 (tableTri.stages - 1)).any
    fun i => decide (tableTri.c i - tableTri.c (i - 1) < -tol)) = true) := by
  have hr : List.range' 1 (tableTri.stages - 1) = [1, 2] := by decide
  rw [hr]
  simp only [List.any_cons, List.any_nil, Bool.or_false, decide_eq_true_eq]
  norm_num [tableTri, tol, UNIT_ROUNDOFF]

/-- The first stage of `tableTri` equals the old solution. -/
theorem tableTri_row0 : ¬ ((|tableTri.c 0| + ∑ k in Finset.range tableTri.nmat,
    ∑ j in Finset.range tableTri.stages, |tableTri.G k 0 j|) > tol) := by
  norm_num [tableTri, tol, UNIT_ROUNDOFF, Finset.sum_range_succ]

/-- The last abscissa of `tableTri` is 1. -/
theorem tableTri_lastc : ¬ (|1 - tableTri.c (tableTri.stages - 1)| > tol) := by
  norm_num [tableTri, tol, UNIT_ROUNDOFF]

/-- Every strictly upper-triangular entry of `tableTri` is individually
within `tol`. -/
theorem tableTri_elementwise :
    |tableTri.G 0 0 1| ≤ tol ∧ |tableTri.G 0 0 2| ≤ tol ∧
    |tableTri.G 0 1 2| ≤ tol ∧ |tableTri.G 1 0 1| ≤ tol ∧
    |tableTri.G 1 0 2| ≤ tol ∧ |tableTri.G 1 1 2| ≤ tol := by
  have ha : |(15 : ℚ) / 1125899906842624| = 15 / 1125899906842624 :=
    abs_of_pos (by norm_num)
  refine ⟨?_, ?_, ?_, ?_, ?_, ?_⟩ <;>
    norm_num [tableTri, tol, UNIT_ROUNDOFF, ha]

/-- Claim C9: for every stage index outside `[1, stages−1]` (in particular
stage 0), both `mriStep_StageType` and `mriStep_RKCoeffs` return the negative
`ARK_INVALID_TABLE` code instead of classifying the stage or producing an
effective RK row. -/
theorem stage0_rejected (MRIC : MRIStepCoupling) (is : ℕ)
    (h : is < 1 ∨ MRIC.stages ≤ is) :
    mriStep_StageType MRIC is = ARK_INVALID_TABLE ∧
    (mriStep_RKCoeffs MRIC is).1 = ARK_INVALID_TABLE ∧
    ARK_INVALID_TABLE < 0 := by
  refine ⟨?_, ?_, by decide⟩
  · rw [mriStep_StageType, if_pos h]
  · rw [mriStep_RKCoeffs, if_pos h]

/-- Witness for C9: stage 0 of the concrete table `table2`. -/
theorem stage0_rejected_witness :
    mriStep_StageType table2 0 = ARK_INVALID_TABLE ∧
    (mriStep_RKCoeffs table2 0).1 = ARK_INVALID_TABLE ∧
    ARK_INVALID_TABLE < 0 :=
  stage0_rejected table2 0 (Or.inl (by decide))

/-- Claim C2: for every stage index `is ∈ [1, stages−1]`, the effective RK
row computed by `mriStep_RKCoeffs` satisfies
`A_row[j] = Σ_{k<nmat} G[k][is][j]/(k+1)` for `j ≤ is` and `A_row[j] = 0`
for every `j > is` within the row's extent. -/
theorem rkcoeffs_effective_row (MRIC : MRIStepCoupling) (is : ℕ)
    (h1 : 1 ≤ is) (h2 : is < MRIC.stages) :
    (mriStep_RKCoeffs MRIC is).1 = ARK_SUCCESS ∧
    (∀ j, j ≤ is → (mriStep_RKCoeffs MRIC is).2 j =
        ∑ k in Finset.range MRIC.nmat, MRIC.G k is j / ((k : ℚ) + 1)) ∧
    (∀ j, is < j → j < MRIC.stages → (mriStep_RKCoeffs MRIC is).2 j = 0) := by
  have hcond : ¬ (is < 1 ∨ MRIC.stages ≤ is) := by
    push_neg
    exact ⟨h1, h2⟩
  rw [mriStep_RKCoeffs, if_neg hcond]
  refine ⟨rfl, ?_, ?_⟩
  · intro j hj
    have hjs : j < MRIC.stages := lt_of_le_of_lt hj h2
    simp only [if_pos (And.intro hjs hj)]
    exact Finset.sum_congr rfl fun k _ => by rw [mul_one_div]
  · intro j hij hjs
    have : ¬ (j < MRIC.stages ∧ j ≤ is) := fun hc => absurd hc.2 (not_le.mpr hij)
    simp only [if_neg this]

/-- Witness for C2: stage 1 of the three-stage table `tableMIS`, evaluating
the row at `j = 0` (inside the sum) and `j = 2` (beyond the stage). -/
theorem rkcoeffs_effective_row_witness :
    (mriStep_RKCoeffs tableMIS 1).1 = ARK_SUCCESS ∧
    (mriStep_RKCoeffs tableMIS 1).2 0 =
      ∑ k in Finset.range tableMIS.nmat, tableMIS.G k 1 0 / ((k : ℚ) + 1) ∧
    (mriStep_RKCoeffs tableMIS 1).2 2 = 0 := by
  obtain ⟨ha, hb, hc⟩ := rkcoeffs_effective_row tableMIS 1 (by decide) (by decide)
  exact ⟨ha, hb 0 (by decide), hc 2 (by decide) (by decide)⟩

/-- Claim C3 (amended): if a coupling table passes every validation rule
except the last-abscissa rule (`|1 − c[stages−1]| > tol`), then
`mriStep_CheckCoupling` returns `ARK_INVALID_TABLE`, but `mriStep_Init`
surfaces the failure as `ARK_ILL_INPUT` — a distinct code — rather than
returning `ARK_INVALID_TABLE` itself. -/
theorem init_rejects_bad_last_abscissa (MRIC : MRIStepCoupling)
    (h1 : ¬ MRIC.stages < 1) (h2 : ¬ MRIC.q < 1)
    (h4 : ¬ ((∑ k in Finset.range MRIC.nmat, ∑ i in Finset.range MRIC.stages,
        ∑ j in Finset.Ico (i + 1) MRIC.stages, |MRIC.G k i j|) > tol))
    (h5 : ¬ (((List.range MRIC.stages).any
        fun i => mriStep_StageType MRIC i == MRISTAGE_DIRK_FAST) = true))
    (h6 : ¬ (((List.range' 1 (MRIC.stages - 1)).any
        fun i => decide (MRIC.c i - MRIC.c (i - 1) < -tol)) = true))
    (h7 : ¬ ((|MRIC.c 0| + ∑ k in Finset.range MRIC.nmat,
        ∑ j in Finset.range MRIC.stages, |MRIC.G k 0 j|) > tol))
    (h8 : |1 - MRIC.c (MRIC.stages - 1)| > tol) :
    mriStep_CheckCoupling MRIC true = ARK_INVALID_TABLE ∧
    mriStep_Init MRIC true none none none FIRST_INIT = ARK_ILL_INPUT ∧
    ARK_ILL_INPUT ≠ ARK_INVALID_TABLE := by
  have hchk : mriStep_CheckCoupling MRIC true = ARK_INVALID_TABLE := by
    rw [mriStep_CheckCoupling, if_neg h1, if_neg h2,
        if_neg (fun hc => absurd hc.2 (by decide)), if_neg h4, if_neg h5,
        if_neg h6, if_neg h7, if_pos h8]
  refine ⟨hchk, ?_, by decide⟩
  simp only [mriStep_Init, hchk]
  decide

/-- Witness for C3: the concrete table `tableLast` with last abscissa
`9/10`. -/
theorem init_rejects_bad_last_abscissa_witness :
    mriStep_CheckCoupling tableLast true = ARK_INVALID_TABLE ∧
    mriStep_Init tableLast true none none none FIRST_INIT = ARK_ILL_INPUT ∧
    ARK_ILL_INPUT ≠ ARK_INVALID_TABLE :=
  init_rejects_bad_last_abscissa tableLast (by decide) (by decide)
    tableLast_lowerTri tableLast_noDirkFast tableLast_sorted
    tableLast_row0 tableLast_lastBad

/-- Counterexample for C3 as stated: on the table with `c[stages−1] = 9/10`,
`init` returns `ARK_ILL_INPUT`, not the `ARK_INVALID_TABLE` code the claim
names (the latter is only the return of the inner check routine). -/
theorem init_bad_last_abscissa_cex :
    mriStep_Init tableLast true none none none FIRST_INIT = ARK_ILL_INPUT ∧
    ARK_ILL_INPUT ≠ ARK_INVALID_TABLE := by
  constructor
  · simp only [mriStep_Init, tableLast_check]
    decide
  · decide

/-- Claim C4 (amended): given that the remaining validation rules hold, the
lower-triangularity rule (and with it `mriStep_CheckCoupling`) passes exactly
when the aggregate sum `Σ_{k,i,j>i} |G[k][i][j]|` is within `tol` — not when
each entry is individually within `tol`; individual smallness is only the
necessary direction. -/
theorem check_coupling_lower_triangular (MRIC : MRIStepCoupling)
    (h1 : ¬ MRIC.stages < 1) (h2 : ¬ MRIC.q < 1)
    (h5 : ¬ (((List.range MRIC.stages).any
        fun i => mriStep_StageType MRIC i == MRISTAGE_DIRK_FAST) = true))
    (h6 : ¬ (((List.range' 1 (MRIC.stages - 1)).any
        fun i => decide (MRIC.c i - MRIC.c (i - 1) < -tol)) = true))
    (h7 : ¬ ((|MRIC.c 0| + ∑ k in Finset.range MRIC.nmat,
        ∑ j in Finset.range MRIC.stages, |MRIC.G k 0 j|) > tol))
    (h8 : ¬ (|1 - MRIC.c (MRIC.stages - 1)| > tol)) :
    (mriStep_CheckCoupling MRIC true = ARK_SUCCESS ↔
      (∑ k in Finset.range MRIC.nmat, ∑ i in Finset.range MRIC.stages,
        ∑ j in Finset.Ico (i + 1) MRIC.stages, |MRIC.G k i j|) ≤ tol) ∧
    (mriStep_CheckCoupling MRIC true = ARK_SUCCESS →
      ∀ k, k < MRIC.nmat → ∀ i j, i < j → j < MRIC.stages →
        |MRIC.G k i j| ≤ tol) := by
  have e3 : ¬ (MRIC.p < 1 ∧ (true : Bool) = false) :=
    fun hc => absurd hc.2 (by decide)
  have hiff : mriStep_CheckCoupling MRIC true = ARK_SUCCESS ↔
      (∑ k in Finset.range MRIC.nmat, ∑ i in Finset.range MRIC.stages,
        ∑ j in Finset.Ico (i + 1) MRIC.stages, |MRIC.G k i j|) ≤ tol := by
    constructor
    · intro hs
      by_contra hgt
      rw [not_le] at hgt
      rw [mriStep_CheckCoupling, if_neg h1, if_neg h2, if_neg e3,
          if_pos hgt] at hs
      exact absurd hs (by decide)
    · intro hle
      rw [mriStep_CheckCoupling, if_neg h1, if_neg h2, if_neg e3,
          if_neg (not_lt.mpr hle), if_neg h5, if_neg h6, if_neg h7, if_neg h8]
  refine ⟨hiff, ?_⟩
  intro hs k hk i j hij hjs
  have hsum := hiff.mp hs
  have t1 : |MRIC.G k i j| ≤
      ∑ j' in Finset.Ico (i + 1) MRIC.stages, |MRIC.G k i j'| :=
    @Finset.single_le_sum ℕ ℚ _ (fun j' => |MRIC.G k i j'|)
      (Finset.Ico (i + 1) MRIC.stages) (fun _ _ => abs_nonneg _) j
      (Finset.mem_Ico.mpr ⟨hij, hjs⟩)
  have t2 : (∑ j' in Finset.Ico (i + 1) MRIC.stages, |MRIC.G k i j'|) ≤
      ∑ i' in Finset.range MRIC.stages,
        ∑ j' in Finset.Ico (i' + 1) MRIC.stages, |MRIC.G k i' j'| :=
    @Finset.single_le_sum ℕ ℚ _
      (fun i' => ∑ j' in Finset.Ico (i' + 1) MRIC.stages, |MRIC.G k i' j'|)
      (Finset.range MRIC.stages)
      (fun _ _ => Finset.sum_nonneg fun _ _ => abs_nonneg _) i
      (Finset.mem_range.mpr (lt_trans hij hjs))
  have t3 : (∑ i' in Finset.range MRIC.stages,
        ∑ j' in Finset.Ico (i' + 1) MRIC.stages, |MRIC.G k i' j'|) ≤
      ∑ k' in Finset.range MRIC.nmat, ∑ i' in Finset.range MRIC.stages,
        ∑ j' in Finset.Ico (i' + 1) MRIC.stages, |MRIC.G k' i' j'| :=
    @Finset.single_le_sum ℕ ℚ _
      (fun k' => ∑ i' in Finset.range MRIC.stages,
        ∑ j' in Finset.Ico (i' + 1) MRIC.stages, |MRIC.G k' i' j'|)
      (Finset.range MRIC.nmat)
      (fun _ _ => Finset.sum_nonneg fun _ _ =>
        Finset.sum_nonneg fun _ _ => abs_nonneg _) k
      (Finset.mem_range.mpr hk)
  exact le_trans (le_trans t1 (le_trans t2 t3)) hsum

/-- Witness for C4: the valid table `table2`, where the rule passes and every
strictly upper entry (such as `G[0][0][1]`) is within `tol`. -/
theorem check_coupling_lower_triangular_witness :
    (mriStep_CheckCoupling table2 true = ARK_SUCCESS ↔
      (∑ k in Finset.range table2.nmat, ∑ i in Finset.range table2.stages,
        ∑ j in Finset.Ico (i + 1) table2.stages, |table2.G k i j|) ≤ tol) ∧
    |table2.G 0 0 1| ≤ tol := by
  have h := check_coupling_lower_triangular table2 (by decide) (by decide)
    table2_noDirkFast table2_sorted table2_row0 table2_lastc
  exact ⟨h.1, h.2 table2_check 0 (by decide) 0 1 (by decide) (by decide)⟩

/-- Claim C10 (amended): on the first step or after a resize (`initsetup`),
provided the interpolation structure is present or the trivial predictor is
selected, `mriStep_Predict` returns the previous solution `y_n` for every
predictor setting, without consulting the interpolation module (the
conclusion holds for arbitrary interpolation-predictor functions in the
environment).  When the interpolation structure is absent and
`predictor > 0`, the routine instead fails with `ARK_MEM_NULL` even though
`initsetup` is set. -/
theorem predict_initsetup_trivial (env : PredictEnv) (F : ℕ → Vec)
    (istage : ℕ) (yguess : Vec) (hinit : env.initsetup = true)
    (hok : env.predictor ≤ 0 ∨ ¬ env.interp.isNone) :
    mriStep_Predict env F istage yguess = (ARK_SUCCESS, env.yn) := by
  have hcond : ¬ (env.interp.isNone ∧ env.predictor > 0) := by
    rintro ⟨hnone, hpos⟩
    rcases hok with hle | hsome
    · exact absurd hpos (not_lt.mpr hle)
    · exact hsome hnone
  rw [mriStep_Predict, if_neg hcond, if_pos hinit]

/-- Witness for C10: in `predEnvA` (interpolation present, predictor 4,
`initsetup`), the predictor returns `y_n`. -/
theorem predict_initsetup_trivial_witness :
    mriStep_Predict predEnvA (fun _ => zeroVec) 1 zeroVec =
      (ARK_SUCCESS, predEnvA.yn) :=
  predict_initsetup_trivial predEnvA (fun _ => zeroVec) 1 zeroVec rfl
    (Or.inr (by decide))

/-- Counterexample for C10 as stated: with `initsetup` set but the
interpolation structure absent and predictor 1, `mriStep_Predict` returns
`ARK_MEM_NULL` with the untouched guess buffer (zero), not `y_n = 7`: the
presence check at the top of the routine precedes the `initsetup` branch. -/
theorem predict_initsetup_cex :
    predEnvB.initsetup = true ∧
    mriStep_Predict predEnvB (fun _ => zeroVec) 1 zeroVec =
      (ARK_MEM_NULL, zeroVec) ∧
    ARK_MEM_NULL ≠ ARK_SUCCESS ∧
    zeroVec 0 = 0 ∧ predEnvB.yn 0 = 7 ∧ (0 : ℚ) ≠ 7 := by
  refine ⟨rfl, ?_, by decide, rfl, rfl, by norm_num⟩
  rw [mriStep_Predict, if_pos ⟨rfl, by decide⟩]

/-- Counterexample for C4 as stated: in `tableTri` every strictly
upper-triangular coefficient is individually within `tol` and all other
rules hold, yet `mriStep_CheckCoupling` returns `ARK_INVALID_TABLE`,
because the rule bounds the aggregate sum, not each entry. -/
theorem check_coupling_elementwise_cex :
    (|tableTri.G 0 0 1| ≤ tol ∧ |tableTri.G 0 0 2| ≤ tol ∧
     |tableTri.G 0 1 2| ≤ tol ∧ |tableTri.G 1 0 1| ≤ tol ∧
     |tableTri.G 1 0 2| ≤ tol ∧ |tableTri.G 1 1 2| ≤ tol) ∧
    ¬ tableTri.stages < 1 ∧ ¬ tableTri.q < 1 ∧
    ¬ (((List.range tableTri.stages).any
        fun i => mriStep_StageType tableTri i == MRISTAGE_DIRK_FAST) = true) ∧
    ¬ (((List.range' 1 (tableTri.stages - 1)).any
        fun i => decide (tableTri.c i - tableTri.c (i - 1) < -tol)) = true) ∧
    ¬ ((|tableTri.c 0| + ∑ k in Finset.range tableTri.nmat,
        ∑ j in Finset.range tableTri.stages, |tableTri.G k 0 j|) > tol) ∧
    ¬ (|1 - tableTri.c (tableTri.stages - 1)| > tol) ∧
    mriStep_CheckCoupling tableTri true = ARK_INVALID_TABLE ∧
    ARK_INVALID_TABLE ≠ ARK_SUCCESS :=
  ⟨tableTri_elementwise, by decide, by decide, tableTri_noDirkFast,
   tableTri_sorted, tableTri_row0, tableTri_lastc, tableTri_check, by decide⟩

/-- `mriStep_StageERKFast` does not touch the counters, the logs or the
stage time. -/
theorem stageERKFast_frame (env : StepEnv) (s : StepState) (is : ℕ) :
    (mriStep_StageERKFast env s is).2.nfs = s.nfs ∧
    (mriStep_StageERKFast env s is).2.fsRets = s.fsRets ∧
    (mriStep_StageERKFast env s is).2.resetLog = s.resetLog ∧
    (mriStep_StageERKFast env s is).2.stageLog = s.stageLog ∧
    (mriStep_StageERKFast env s is).2.tcur = s.tcur := by
  unfold mriStep_StageERKFast
  cases env.pre_inner_evolve <;> cases env.post_inner_evolve <;>
    dsimp only <;> split_ifs <;> simp

/-- `mriStep_StageERKNoFast` does not touch the counters, the logs or the
stage time. -/
theorem stageERKNoFast_frame (env : StepEnv) (s : StepState) (is : ℕ) :
    (mriStep_StageERKNoFast env s is).2.nfs = s.nfs ∧
    (mriStep_StageERKNoFast env s is).2.fsRets = s.fsRets ∧
    (mriStep_StageERKNoFast env s is).2.resetLog = s.resetLog ∧
    (mriStep_StageERKNoFast env s is).2.stageLog = s.stageLog ∧
    (mriStep_StageERKNoFast env s is).2.tcur = s.tcur := by
  unfold mriStep_StageERKNoFast
  dsimp only
  split_ifs <;> simp

/-- `mriStep_StageDIRKNoFast` does not touch the counters, the logs or the
stage time. -/
theorem stageDIRKNoFast_frame (env : StepEnv) (nflag : Int) (s : StepState)
    (is : ℕ) :
    (mriStep_StageDIRKNoFast env nflag s is).2.2.nfs = s.nfs ∧
    (mriStep_StageDIRKNoFast env nflag s is).2.2.fsRets = s.fsRets ∧
    (mriStep_StageDIRKNoFast env nflag s is).2.2.resetLog = s.resetLog ∧
    (mriStep_StageDIRKNoFast env nflag s is).2.2.stageLog = s.stageLog ∧
    (mriStep_StageDIRKNoFast env nflag s is).2.2.tcur = s.tcur := by
  unfold mriStep_StageDIRKNoFast mriStep_StageSetup
  cases env.stage_predict <;> dsimp only <;> split_ifs <;> simp

/-- The stage dispatch preserves the counters and logs and sets the stage
time to `tn + c[is]·h`. -/
theorem stageDispatch_frame (env : StepEnv) (nflag : Int) (is : ℕ)
    (s : StepState) :
    (mriStep_stageDispatch env nflag is s).2.2.nfs = s.nfs ∧
    (mriStep_stageDispatch env nflag is s).2.2.fsRets = s.fsRets ∧
    (mriStep_stageDispatch env nflag is s).2.2.resetLog = s.resetLog ∧
    (mriStep_stageDispatch env nflag is s).2.2.stageLog = s.stageLog ∧
    (mriStep_stageDispatch env nflag is s).2.2.tcur =
      env.tn + env.MRIC.c is * env.h := by
  unfold mriStep_stageDispatch
  split_ifs with h1 h2 h3 h4
  · exact stageERKFast_frame env _ is
  · exact stageERKNoFast_frame env _ is
  · exact stageDIRKNoFast_frame env nflag _ is
  · exact ⟨rfl, rfl, rfl, rfl, rfl⟩
  · exact ⟨rfl, rfl, rfl, rfl, rfl⟩

/-- `mriStep_applyProcessStage` touches only `ycur`. -/
theorem applyProcessStage_frame (env : StepEnv) (s : StepState) :
    (mriStep_applyProcessStage env s).2.nfs = s.nfs ∧
    (mriStep_applyProcessStage env s).2.fsRets = s.fsRets ∧
    (mriStep_applyProcessStage env s).2.resetLog = s.resetLog ∧
    (mriStep_applyProcessStage env s).2.stageLog = s.stageLog ∧
    (mriStep_applyProcessStage env s).2.tcur = s.tcur := by
  unfold mriStep_applyProcessStage
  cases env.processStage with
  | none => exact ⟨rfl, rfl, rfl, rfl, rfl⟩
  | some ps =>
    dsimp only
    split_ifs <;> simp

/-- `mriStep_conditionalReset` appends to the reset log exactly when the
reset condition holds and a reset operation is provided, recording the
current (`tcur`, `ycur`); it touches nothing else except the stepper's
`lastFlag`. -/
theorem conditionalReset_spec (env : StepEnv) (is : ℕ) (s : StepState) :
    (mriStep_conditionalReset env is s).2.nfs = s.nfs ∧
    (mriStep_conditionalReset env is s).2.fsRets = s.fsRets ∧
    (mriStep_conditionalReset env is s).2.stageLog = s.stageLog ∧
    (mriStep_conditionalReset env is s).2.tcur = s.tcur ∧
    (mriStep_conditionalReset env is s).2.resetLog = s.resetLog ++
      (if ((env.stagetypes is ≠ MRISTAGE_ERK_FAST ∨ env.processStage.isSome) ∧
            env.innerResetOp.isSome = true)
       then [(is, s.tcur, s.ycur)] else []) := by
  unfold mriStep_conditionalReset mriStepInnerStepper_Reset
  by_cases hc : env.stagetypes is ≠ MRISTAGE_ERK_FAST ∨ env.processStage.isSome
  · rw [if_pos hc]
    cases hop : env.innerResetOp with
    | none =>
      dsimp only
      split_ifs with h1 h2 <;> simp_all
    | some f =>
      dsimp only
      split_ifs with h1 h2 <;> simp_all
  · rw [if_neg hc]
    have : ¬ ((env.stagetypes is ≠ MRISTAGE_ERK_FAST ∨ env.processStage.isSome) ∧
        env.innerResetOp.isSome = true) := fun hcc => hc hcc.1
    simp [this]

/-- Characterization of the closing slow-RHS evaluation of a stage: for a
non-final stage it appends the RHS status to `fsRets`, bumps `nfs`, and maps
the status sign to the stage result; for the final stage it is a no-op. -/
theorem stageFs_spec (env : StepEnv) (is : ℕ) (s : StepState) :
    (is < env.MRIC.stages - 1 →
      ∃ r, (mriStep_stageFs env is s).2.fsRets = s.fsRets ++ [r] ∧
        (mriStep_stageFs env is s).2.nfs = s.nfs + 1 ∧
        (0 < r → (mriStep_stageFs env is s).1 = ARK_UNREC_RHSFUNC_ERR) ∧
        (r < 0 → (mriStep_stageFs env is s).1 = ARK_RHSFUNC_FAIL) ∧
        (r = 0 → (mriStep_stageFs env is s).1 = ARK_SUCCESS)) ∧
    (¬ is < env.MRIC.stages - 1 → mriStep_stageFs env is s = (ARK_SUCCESS, s)) ∧
    ((mriStep_stageFs env is s).2.resetLog = s.resetLog ∧
     (mriStep_stageFs env is s).2.stageLog = s.stageLog ∧
     (mriStep_stageFs env is s).2.tcur = s.tcur) := by
  unfold mriStep_stageFs
  by_cases hlt : is < env.MRIC.stages - 1
  · rw [if_pos hlt]
    dsimp only
    refine ⟨fun _ => ⟨(env.fs s.tcur s.ycur).1, ?_⟩, fun hc => absurd hlt hc, ?_⟩
    · split_ifs with ha hb
      · exact ⟨by simp, by simp, fun hp => absurd hp (by omega), fun _ => rfl,
          fun hz => absurd hz (by omega)⟩
      · exact ⟨by simp, by simp, fun _ => rfl, fun hn => absurd hn (by omega),
          fun hz => absurd hz (by omega)⟩
      · exact ⟨by simp, by simp, fun hp => absurd hp (by omega),
          fun hn => absurd hn (by omega), fun _ => rfl⟩
    · split_ifs <;> simp
  · rw [if_neg hlt]
    exact ⟨fun hc => absurd hc hlt, fun _ => rfl, rfl, rfl, rfl⟩

/-- The post-dispatch tail either leaves `fsRets` unchanged or appends the
one status returned by the stage's closing slow-RHS call, whose sign fixes
the stage result. -/
theorem stageFinish_fsRets (env : StepEnv) (is : ℕ) (d : Int × Int × StepState) :
    (mriStep_stageFinish env is d).2.2.fsRets = d.2.2.fsRets ∨
    ∃ r, (mriStep_stageFinish env is d).2.2.fsRets = d.2.2.fsRets ++ [r] ∧
      (0 < r → (mriStep_stageFinish env is d).1 = ARK_UNREC_RHSFUNC_ERR) ∧
      (r < 0 → (mriStep_stageFinish env is d).1 = ARK_RHSFUNC_FAIL) := by
  unfold mriStep_stageFinish
  by_cases hd : d.1 ≠ ARK_SUCCESS
  · rw [if_pos hd]
    exact Or.inl rfl
  · rw [if_neg hd]
    dsimp only
    obtain ⟨hp1, hp2, hp3, hp4, hp5⟩ := applyProcessStage_frame env d.2.2
    by_cases hpp : (mriStep_applyProcessStage env d.2.2).1 ≠ ARK_SUCCESS
    · rw [if_pos hpp]
      exact Or.inl hp2
    · rw [if_neg hpp]
      try dsimp only
      set s3 : StepState :=
        { (mriStep_applyProcessStage env d.2.2).2 with
            stageLog := (mriStep_applyProcessStage env d.2.2).2.stageLog ++
              [(is, (mriStep_applyProcessStage env d.2.2).2.tcur,
                (mriStep_applyProcessStage env d.2.2).2.ycur)] } with hs3
      obtain ⟨hr1, hr2, hr3, hr4, hr5⟩ := conditionalReset_spec env is s3
      by_cases hrr : (mriStep_conditionalReset env is s3).1 ≠ ARK_SUCCESS
      · rw [if_pos hrr]
        refine Or.inl ?_
        rw [hr2, hs3]
        exact hp2
      · rw [if_neg hrr]
        obtain ⟨hfs1, hfs2, hfs3⟩ := stageFs_spec env is (mriStep_conditionalReset env is s3).2
        by_cases hlt : is < env.MRIC.stages - 1
        · obtain ⟨r, ha, hb, hc, hdd, he⟩ := hfs1 hlt
          refine Or.inr ⟨r, ?_, hc, hdd⟩
          rw [ha, hr2, hs3]
          simp [hp2]
        · rw [hfs2 hlt]
          refine Or.inl ?_
          rw [hr2, hs3]
          exact hp2

/-- On a successful stage the tail bumps `nfs` exactly for non-final stages
(appending status `0` to `fsRets`). -/
theorem stageFinish_success_counts (env : StepEnv) (is : ℕ)
    (d : Int × Int × StepState)
    (h : (mriStep_stageFinish env is d).1 = ARK_SUCCESS) :
    (mriStep_stageFinish env is d).2.2.nfs =
      d.2.2.nfs + (if is < env.MRIC.stages - 1 then 1 else 0) ∧
    (mriStep_stageFinish env is d).2.2.fsRets =
      d.2.2.fsRets ++ (if is < env.MRIC.stages - 1 then [0] else []) := by
  unfold mriStep_stageFinish at h ⊢
  by_cases hd : d.1 ≠ ARK_SUCCESS
  · rw [if_pos hd] at h
    exact absurd h hd
  · rw [if_neg hd] at h ⊢
    try dsimp only at h ⊢
    obtain ⟨hp1, hp2, hp3, hp4, hp5⟩ := applyProcessStage_frame env d.2.2
    by_cases hpp : (mriStep_applyProcessStage env d.2.2).1 ≠ ARK_SUCCESS
    · rw [if_pos hpp] at h
      exact absurd h hpp
    · rw [if_neg hpp] at h ⊢
      try dsimp only at h ⊢
      set s3 : StepState :=
        { (mriStep_applyProcessStage env d.2.2).2 with
            stageLog := (mriStep_applyProcessStage env d.2.2).2.stageLog ++
              [(is, (mriStep_applyProcessStage env d.2.2).2.tcur,
                (mriStep_applyProcessStage env d.2.2).2.ycur)] } with hs3
      obtain ⟨hr1, hr2, hr3, hr4, hr5⟩ := conditionalReset_spec env is s3
      by_cases hrr : (mriStep_conditionalReset env is s3).1 ≠ ARK_SUCCESS
      · rw [if_pos hrr] at h
        exact absurd h hrr
      · rw [if_neg hrr] at h ⊢
        obtain ⟨hfs1, hfs2, hfs3⟩ := stageFs_spec env is (mriStep_conditionalReset env is s3).2
        by_cases hlt : is < env.MRIC.stages - 1
        · obtain ⟨r, ha, hb, hc, hdd, he⟩ := hfs1 hlt
          have hr0 : r = 0 := by
            rcases lt_trichotomy r 0 with hx | hx | hx
            · rw [hdd hx] at h
              exact absurd h (by decide)
            · exact hx
            · rw [hc hx] at h
              exact absurd h (by decide)
          rw [if_pos hlt, if_pos hlt]
          constructor
          · rw [hb, hr1, hs3]
            simp [hp1]
          · rw [ha, hr0, hr2, hs3]
            simp [hp2]
        · rw [hfs2 hlt, if_neg hlt, if_neg hlt]
          constructor
          · rw [hr1, hs3]
            simp [hp1]
          · rw [hr2, hs3]
            simp [hp2]

/-- On a successful stage the tail appends exactly one entry to the stage
log, carrying the stage index, the dispatch-time `tcur` and the
post-processed solution, and appends the same entry to the reset log exactly
when the reset condition holds and a reset operation is provided. -/
theorem stageFinish_success_logs (env : StepEnv) (is : ℕ)
    (d : Int × Int × StepState)
    (h : (mriStep_stageFinish env is d).1 = ARK_SUCCESS) :
    ∃ y, (mriStep_stageFinish env is d).2.2.stageLog =
        d.2.2.stageLog ++ [(is, d.2.2.tcur, y)] ∧
      (mriStep_stageFinish env is d).2.2.resetLog =
        d.2.2.resetLog ++
          (if ((env.stagetypes is ≠ MRISTAGE_ERK_FAST ∨ env.processStage.isSome) ∧
                env.innerResetOp.isSome = true)
           then [(is, d.2.2.tcur, y)] else []) := by
  unfold mriStep_stageFinish at h ⊢
  by_cases hd : d.1 ≠ ARK_SUCCESS
  · rw [if_pos hd] at h
    exact absurd h hd
  · rw [if_neg hd] at h ⊢
    try dsimp only at h ⊢
    obtain ⟨hp1, hp2, hp3, hp4, hp5⟩ := applyProcessStage_frame env d.2.2
    by_cases hpp : (mriStep_applyProcessStage env d.2.2).1 ≠ ARK_SUCCESS
    · rw [if_pos hpp] at h
      exact absurd h hpp
    · rw [if_neg hpp] at h ⊢
      try dsimp only at h ⊢
      set s3 : StepState :=
        { (mriStep_applyProcessStage env d.2.2).2 with
            stageLog := (mriStep_applyProcessStage env d.2.2).2.stageLog ++
              [(is, (mriStep_applyProcessStage env d.2.2).2.tcur,
                (mriStep_applyProcessStage env d.2.2).2.ycur)] } with hs3
      obtain ⟨hr1, hr2, hr3, hr4, hr5⟩ := conditionalReset_spec env is s3
      by_cases hrr : (mriStep_conditionalReset env is s3).1 ≠ ARK_SUCCESS
      · rw [if_pos hrr] at h
        exact absurd h hrr
      · rw [if_neg hrr] at h ⊢
        obtain ⟨hfs1, hfs2, hfs3⟩ :=
          stageFs_spec env is (mriStep_conditionalReset env is s3).2
        refine ⟨(mriStep_applyProcessStage env d.2.2).2.ycur, ?_, ?_⟩
        · rw [hfs3.2.1, hr3, hs3]
          simp [hp4, hp5]
        · rw [hfs3.1, hr5, hs3]
          simp only [hp3, hp5]

/-- Body-level version of `stageFinish_fsRets`: one loop iteration appends
at most one slow-RHS status, whose sign fixes the iteration result. -/
theorem stageBody_fsRets (env : StepEnv) (nflag : Int) (is : ℕ)
    (s : StepState) :
    (mriStep_stageBody env nflag is s).2.2.fsRets = s.fsRets ∨
    ∃ r, (mriStep_stageBody env nflag is s).2.2.fsRets = s.fsRets ++ [r] ∧
      (0 < r → (mriStep_stageBody env nflag is s).1 = ARK_UNREC_RHSFUNC_ERR) ∧
      (r < 0 → (mriStep_stageBody env nflag is s).1 = ARK_RHSFUNC_FAIL) := by
  have hdf := (stageDispatch_frame env nflag is s).2.1
  unfold mriStep_stageBody
  rcases stageFinish_fsRets env is (mriStep_stageDispatch env nflag is s) with
    hsame | ⟨r, ha, hb, hc⟩
  · exact Or.inl (hsame.trans hdf)
  · exact Or.inr ⟨r, by rw [ha, hdf], hb, hc⟩

/-- Body-level version of `stageFinish_success_counts`. -/
theorem stageBody_success_counts (env : StepEnv) (nflag : Int) (is : ℕ)
    (s : StepState) (h : (mriStep_stageBody env nflag is s).1 = ARK_SUCCESS) :
    (mriStep_stageBody env nflag is s).2.2.nfs =
      s.nfs + (if is < env.MRIC.stages - 1 then 1 else 0) ∧
    (mriStep_stageBody env nflag is s).2.2.fsRets =
      s.fsRets ++ (if is < env.MRIC.stages - 1 then [0] else []) := by
  have hdf := stageDispatch_frame env nflag is s
  unfold mriStep_stageBody at h ⊢
  obtain ⟨ha, hb⟩ :=
    stageFinish_success_counts env is (mriStep_stageDispatch env nflag is s) h
  exact ⟨by rw [ha, hdf.1], by rw [hb, hdf.2.1]⟩

/-- Body-level version of `stageFinish_success_logs`: the appended stage-log
entry carries the stage time `tn + c[is]·h`. -/
theorem stageBody_success_logs (env : StepEnv) (nflag : Int) (is : ℕ)
    (s : StepState) (h : (mriStep_stageBody env nflag is s).1 = ARK_SUCCESS) :
    ∃ y, (mriStep_stageBody env nflag is s).2.2.stageLog =
        s.stageLog ++ [(is, env.tn + env.MRIC.c is * env.h, y)] ∧
      (mriStep_stageBody env nflag is s).2.2.resetLog =
        s.resetLog ++
          (if ((env.stagetypes is ≠ MRISTAGE_ERK_FAST ∨ env.processStage.isSome) ∧
                env.innerResetOp.isSome = true)
           then [(is, env.tn + env.MRIC.c is * env.h, y)] else []) := by
  have hdf := stageDispatch_frame env nflag is s
  unfold mriStep_stageBody at h ⊢
  obtain ⟨y, ha, hb⟩ :=
    stageFinish_success_logs env is (mriStep_stageDispatch env nflag is s) h
  exact ⟨y, by rw [ha, hdf.2.2.2.1, hdf.2.2.2.2],
    by rw [hb, hdf.2.2.1, hdf.2.2.2.2]⟩

/-- Over any stage list, a successful loop bumps `nfs` once per listed stage
below `stages−1`. -/
theorem stageLoop_success_nfs (env : StepEnv) (l : List ℕ) :
    ∀ nflag s, (mriStep_stageLoop env l nflag s).1 = ARK_SUCCESS →
    (mriStep_stageLoop env l nflag s).2.2.nfs =
      s.nfs + l.countP (fun is => decide (is < env.MRIC.stages - 1)) := by
  induction l with
  | nil =>
    intro nflag s _
    simp [mriStep_stageLoop]
  | cons is rest ih =>
    intro nflag s h
    simp only [mriStep_stageLoop] at h ⊢
    by_cases hb : (mriStep_stageBody env nflag is s).1 = ARK_SUCCESS
    · rw [if_neg (not_not_intro hb)] at h ⊢
      obtain ⟨hn, _⟩ := stageBody_success_counts env nflag is s hb
      rw [ih _ _ h, hn, List.countP_cons]
      by_cases hlt : is < env.MRIC.stages - 1 <;> simp [hlt] <;> omega
    · rw [if_pos hb] at h
      exact absurd h hb

/-- Over any stage list, if some slow-RHS call of a loop run returned a
positive status (given none had before the run), the loop result is
`ARK_UNREC_RHSFUNC_ERR`. -/
theorem stageLoop_positive_fs (env : StepEnv) (l : List ℕ) :
    ∀ nflag s, (∀ r ∈ s.fsRets, r = 0) →
    ∀ r ∈ (mriStep_stageLoop env l nflag s).2.2.fsRets, 0 < r →
    (mriStep_stageLoop env l nflag s).1 = ARK_UNREC_RHSFUNC_ERR := by
  induction l with
  | nil =>
    intro nflag s hprev r hr hrpos
    simp only [mriStep_stageLoop] at hr ⊢
    exact absurd (hprev r hr) (by omega)
  | cons is rest ih =>
    intro nflag s hprev r hr hrpos
    simp only [mriStep_stageLoop] at hr ⊢
    by_cases hb : (mriStep_stageBody env nflag is s).1 = ARK_SUCCESS
    · rw [if_neg (not_not_intro hb)] at hr ⊢
      obtain ⟨_, hfr⟩ := stageBody_success_counts env nflag is s hb
      refine ih _ _ ?_ r hr hrpos
      rw [hfr]
      intro x hx
      rcases List.mem_append.mp hx with hx1 | hx2
      · exact hprev x hx1
      · by_cases hlt : is < env.MRIC.stages - 1 <;> simp [hlt] at hx2
        exact hx2
    · rw [if_pos hb] at hr ⊢
      rcases stageBody_fsRets env nflag is s with hsame | ⟨rv, ha, hp, hn⟩
      · rw [hsame] at hr
        exact absurd (hprev r hr) (by omega)
      · rw [ha] at hr
        rcases List.mem_append.mp hr with hx1 | hx2
        · exact absurd (hprev r hx1) (by omega)
        · have hrv : r = rv := List.mem_singleton.mp hx2
          exact hp (hrv ▸ hrpos)

/-- Over any stage list, a successful loop preserves the invariant that the
reset log is the `resetQ`-filter of the stage log, appends exactly the listed
stage indices to the stage log, and stamps each new entry with its stage
time. -/
theorem stageLoop_success_logs (env : StepEnv) (l : List ℕ) :
    ∀ nflag s, (mriStep_stageLoop env l nflag s).1 = ARK_SUCCESS →
    s.resetLog = s.stageLog.filter (resetQ env) →
    ((mriStep_stageLoop env l nflag s).2.2.resetLog =
       (mriStep_stageLoop env l nflag s).2.2.stageLog.filter (resetQ env) ∧
     (mriStep_stageLoop env l nflag s).2.2.stageLog.map Prod.fst =
       s.stageLog.map Prod.fst ++ l ∧
     (∀ e ∈ (mriStep_stageLoop env l nflag s).2.2.stageLog,
        e ∈ s.stageLog ∨ e.2.1 = env.tn + env.MRIC.c e.1 * env.h)) := by
  induction l with
  | nil =>
    intro nflag s _ hinv
    simp only [mriStep_stageLoop]
    exact ⟨hinv, by simp, fun e he => Or.inl he⟩
  | cons is rest ih =>
    intro nflag s h hinv
    simp only [mriStep_stageLoop] at h ⊢
    by_cases hb : (mriStep_stageBody env nflag is s).1 = ARK_SUCCESS
    · rw [if_neg (not_not_intro hb)] at h ⊢
      obtain ⟨y, hsl, hrl⟩ := stageBody_success_logs env nflag is s hb
      have hinv' : (mriStep_stageBody env nflag is s).2.2.resetLog =
          (mriStep_stageBody env nflag is s).2.2.stageLog.filter (resetQ env) := by
        rw [hsl, hrl, hinv, List.filter_append]
        congr 1
        by_cases hc : (env.stagetypes is ≠ MRISTAGE_ERK_FAST ∨
            env.processStage.isSome) ∧ env.innerResetOp.isSome = true
        · rw [if_pos hc]
          have hq : resetQ env (is, env.tn + env.MRIC.c is * env.h, y) = true := by
            simp only [resetQ, Bool.and_eq_true, Bool.or_eq_true,
              decide_eq_true_eq]
            rcases hc with ⟨hc1 | hc2, hc3⟩
            · exact ⟨Or.inl hc1, hc3⟩
            · exact ⟨Or.inr hc2, hc3⟩
          simp [hq]
        · rw [if_neg hc]
          have hq : resetQ env (is, env.tn + env.MRIC.c is * env.h, y) = false := by
            by_contra hqq
            rw [Bool.not_eq_false] at hqq
            simp only [resetQ, Bool.and_eq_true, Bool.or_eq_true,
              decide_eq_true_eq] at hqq
            exact hc hqq
          simp [hq]
      obtain ⟨ha, hbm, hcm⟩ := ih _ _ h hinv'
      refine ⟨ha, ?_, ?_⟩
      · rw [hbm, hsl]
        simp
      · intro e he
        rcases hcm e he with he1 | he2
        · rw [hsl] at he1
          rcases List.mem_append.mp he1 with hx1 | hx2
          · exact Or.inl hx1
          · have := List.mem_singleton.mp hx2
            subst this
            exact Or.inr rfl
        · exact Or.inr he2
    · rw [if_pos hb] at h
      exact absurd h hb

/-- Counting helper: among the stage indices `1 … m` exactly `m − 1` are
below `m`. -/
theorem countP_range'_lt (m : ℕ) :
    (List.range' 1 m).countP (fun is => decide (is < m)) = m - 1 := by
  cases m with
  | zero => rfl
  | succ m =>
    rw [List.range'_concat, List.countP_append]
    simp only [one_mul]
    have h1 : (List.range' 1 m).countP (fun is => decide (is < m + 1)) = m := by
      rw [List.countP_eq_length.mpr, List.length_range']
      intro a ha
      have := (List.mem_range'_1.mp ha).2
      simp only [decide_eq_true_eq]
      omega
    have h2 : ([1 + m] : List ℕ).countP (fun is => decide (is < m + 1)) = 0 := by
      simp [List.countP_cons]
      omega
    rw [h1, h2]
    omega

/-- Claim C5 (amended): every successful `mriStep_TakeStep` increments the
slow-RHS counter `nfs` by exactly `stages − 2` (one evaluation per stage
that is neither first nor last; the loop skips the RHS update at the last
stage, whose slow RHS is recomputed by the post-step full-RHS call), not by
`stages − 1`.  Nonlinear-solver-internal RHS evaluations are outside the
model's counter, as in the claim. -/
theorem takestep_nfs_increment (env : StepEnv) (s : StepState)
    (h : (mriStep_TakeStep env s).1 = ARK_SUCCESS) :
    (mriStep_TakeStep env s).2.2.2.nfs = s.nfs + (env.MRIC.stages - 2) := by
  have hc : (List.range' 1 (env.MRIC.stages - 1)).countP
      (fun is => decide (is < env.MRIC.stages - 1)) = env.MRIC.stages - 2 := by
    rw [countP_range'_lt]
    omega
  unfold mriStep_TakeStep at h ⊢
  cases hset : env.nlsSetupRet with
  | none =>
    simp only [hset] at h ⊢
    rw [stageLoop_success_nfs env _ _ _ h, hc]
  | some r =>
    simp only [hset] at h ⊢
    split_ifs at h ⊢ with h1 h2
    · exact absurd (show ARK_NLS_SETUP_FAIL = ARK_SUCCESS from h) (by decide)
    · exact absurd (show ARK_NLS_SETUP_RECVR = ARK_SUCCESS from h) (by decide)
    · rw [stageLoop_success_nfs env _ _ _ h, hc]

/-- Witness for C5: the concrete three-stage run `baseEnv` from `state0`. -/
theorem takestep_nfs_increment_witness :
    (mriStep_TakeStep baseEnv state0).2.2.2.nfs =
      state0.nfs + (baseEnv.MRIC.stages - 2) :=
  takestep_nfs_increment baseEnv state0 rfl

/-- Counterexample for C5 as stated: on the validated three-stage table
`tableMIS` (whose stage types the environment `baseEnv` carries exactly as
`mriStep_StageType` computes them), a successful take-step increments `nfs`
by 1, not by `stages − 1 = 2`. -/
theorem takestep_nfs_cex :
    mriStep_CheckCoupling tableMIS true = ARK_SUCCESS ∧
    baseEnv.stagetypes 0 = mriStep_StageType tableMIS 0 ∧
    baseEnv.stagetypes 1 = mriStep_StageType tableMIS 1 ∧
    baseEnv.stagetypes 2 = mriStep_StageType tableMIS 2 ∧
    (mriStep_TakeStep baseEnv state0).1 = ARK_SUCCESS ∧
    state0.nfs = 0 ∧
    (mriStep_TakeStep baseEnv state0).2.2.2.nfs = 1 ∧
    tableMIS.stages = 3 ∧ (1 : ℕ) ≠ 3 - 1 := by
  refine ⟨tableMIS_check, ?_, ?_, ?_, rfl, rfl, rfl, rfl, by decide⟩
  · rw [show mriStep_StageType tableMIS 0 = ARK_INVALID_TABLE by
      rw [mriStep_StageType, if_pos (Or.inl (by decide))]]
    rfl
  · rw [tableMIS_stagetype1]
    rfl
  · rw [tableMIS_stagetype2]
    rfl

/-- Claim C6 (amended): whenever the slow RHS callback `fs` returns a
positive value during a stage of `mriStep_TakeStep`, the step returns
`ARK_UNREC_RHSFUNC_ERR`, a negative (unrecoverable) code — not a positive
recoverable one. -/
theorem takestep_positive_fs (env : StepEnv) (s : StepState)
    (h0 : s.fsRets = [])
    (hpos : ∃ r ∈ (mriStep_TakeStep env s).2.2.2.fsRets, 0 < r) :
    (mriStep_TakeStep env s).1 = ARK_UNREC_RHSFUNC_ERR ∧
    ARK_UNREC_RHSFUNC_ERR < 0 := by
  obtain ⟨r, hr, hrpos⟩ := hpos
  refine ⟨?_, by decide⟩
  unfold mriStep_TakeStep at hr ⊢
  have hprev : ∀ x ∈ s.fsRets, x = 0 := by
    rw [h0]
    intro x hx
    exact absurd hx (List.not_mem_nil x)
  cases hset : env.nlsSetupRet with
  | none =>
    simp only [hset] at hr ⊢
    exact stageLoop_positive_fs env _ _ _ hprev r hr hrpos
  | some rv =>
    simp only [hset] at hr ⊢
    split_ifs at hr ⊢ with h1 h2
    · rw [h0] at hr
      exact absurd hr (List.not_mem_nil r)
    · rw [h0] at hr
      exact absurd hr (List.not_mem_nil r)
    · exact stageLoop_positive_fs env _ _ _ hprev r hr hrpos

/-- Witness for C6: the concrete run `envPosFs` whose slow RHS always
returns `+1`. -/
theorem takestep_positive_fs_witness :
    (mriStep_TakeStep envPosFs state0).1 = ARK_UNREC_RHSFUNC_ERR ∧
    ARK_UNREC_RHSFUNC_ERR < 0 :=
  takestep_positive_fs envPosFs state0 rfl
    ⟨1, List.mem_singleton.mpr rfl, by decide⟩

/-- Counterexample for C6 as stated: in the run `envPosFs` the slow RHS
returned `+1` at stage 1 (as the log records), and take-step returned the
negative `ARK_UNREC_RHSFUNC_ERR`, not a positive recoverable code. -/
theorem takestep_positive_fs_cex :
    (mriStep_TakeStep envPosFs state0).2.2.2.fsRets = [1] ∧
    (mriStep_TakeStep envPosFs state0).1 = ARK_UNREC_RHSFUNC_ERR ∧
    ARK_UNREC_RHSFUNC_ERR < 0 ∧ ¬ (0 < ARK_UNREC_RHSFUNC_ERR) :=
  ⟨rfl, rfl, by decide, by decide⟩

/-- Claim C8: in a successful `mriStep_TakeStep` starting with empty logs,
the inner stepper's reset operation (when provided) is invoked exactly once
per stage whose type is not `ERK_FAST` or with a `ProcessStage` callback
set, with precisely that stage's (`t_cur`, `ycur`) as recorded in the stage
log (whose entries enumerate stages `1 … stages−1` with times
`tn + c[is]·h`); after an `ERK_FAST` stage with no `ProcessStage` callback —
or when no reset operation is provided — reset is not invoked. -/
theorem takestep_reset_contract (env : StepEnv) (s : StepState)
    (h0r : s.resetLog = []) (h0s : s.stageLog = [])
    (h : (mriStep_TakeStep env s).1 = ARK_SUCCESS) :
    (mriStep_TakeStep env s).2.2.2.resetLog =
      (mriStep_TakeStep env s).2.2.2.stageLog.filter (resetQ env) ∧
    (mriStep_TakeStep env s).2.2.2.stageLog.map Prod.fst =
      List.range' 1 (env.MRIC.stages - 1) ∧
    ∀ e ∈ (mriStep_TakeStep env s).2.2.2.stageLog,
      e.2.1 = env.tn + env.MRIC.c e.1 * env.h := by
  have hinv : s.resetLog = s.stageLog.filter (resetQ env) := by
    rw [h0r, h0s]
    rfl
  unfold mriStep_TakeStep at h ⊢
  cases hset : env.nlsSetupRet with
  | none =>
    simp only [hset] at h ⊢
    obtain ⟨ha, hb, hc⟩ := stageLoop_success_logs env _ _ _ h hinv
    refine ⟨ha, ?_, ?_⟩
    · rw [hb, h0s]
      rfl
    · intro e he
      rcases hc e he with he1 | he2
      · rw [h0s] at he1
        exact absurd he1 (List.not_mem_nil e)
      · exact he2
  | some rv =>
    simp only [hset] at h ⊢
    split_ifs at h ⊢ with h1 h2
    · exact absurd (show ARK_NLS_SETUP_FAIL = ARK_SUCCESS from h) (by decide)
    · exact absurd (show ARK_NLS_SETUP_RECVR = ARK_SUCCESS from h) (by decide)
    · obtain ⟨ha, hb, hc⟩ := stageLoop_success_logs env _ _ _ h hinv
      refine ⟨ha, ?_, ?_⟩
      · rw [hb, h0s]
        rfl
      · intro e he
        rcases hc e he with he1 | he2
        · rw [h0s] at he1
          exact absurd he1 (List.not_mem_nil e)
        · exact he2

/-- Witness for C8: the concrete run `envReset` (stage 1 `ERK_NOFAST`,
stage 2 `ERK_FAST`, reset operation provided, no `ProcessStage`): the reset
operation is called exactly after stage 1 and not after the `ERK_FAST`
stage 2. -/
theorem takestep_reset_contract_witness :
    (mriStep_TakeStep envReset state0).2.2.2.resetLog =
      (mriStep_TakeStep envReset state0).2.2.2.stageLog.filter
        (resetQ envReset) ∧
    (mriStep_TakeStep envReset state0).2.2.2.stageLog.map Prod.fst = [1, 2] ∧
    (mriStep_TakeStep envReset state0).2.2.2.resetLog.map Prod.fst = [1] := by
  obtain ⟨ha, hb, _⟩ := takestep_reset_contract envReset state0 rfl rfl rfl
  exact ⟨ha, hb, rfl⟩

/-- Claim C1: for every `ERK_FAST` stage `is` of a validated coupling table,
`mriStep_StageERKFast` assembles the inner forcing vectors as
`forcing[k] = (1/cdiff) · Σ_{j<is} G[k][is][j] · F[j]` for every `k < nmat`
with `cdiff = c[is] − c[is−1]`, and sets the inner stepper's time
normalization to `tshift = t_n + c[is−1]·h` and `tscale = cdiff·h`; the
stepper state carrying these values is the one handed to the inner evolve
call. -/
theorem stageERKFast_forcing (env : StepEnv) (s : StepState) (is : ℕ)
    (hval : mriStep_CheckCoupling env.MRIC true = ARK_SUCCESS)
    (hty : mriStep_StageType env.MRIC is = MRISTAGE_ERK_FAST) :
    (∀ k, k < env.MRIC.nmat → ∀ x,
      (mriStep_StageERKFast env s is).2.stepper.forcing k x =
        (1 / (env.MRIC.c is - env.MRIC.c (is - 1))) *
          ∑ j in Finset.range is, env.MRIC.G k is j * s.F j x) ∧
    (mriStep_StageERKFast env s is).2.stepper.tshift =
      env.tn + env.MRIC.c (is - 1) * env.h ∧
    (mriStep_StageERKFast env s is).2.stepper.tscale =
      (env.MRIC.c is - env.MRIC.c (is - 1)) * env.h := by
  have hstep : (mriStep_StageERKFast env s is).2.stepper.forcing =
      mriStep_ComputeInnerForcing env.MRIC s.F s.stepper.forcing is
        (env.MRIC.c is - env.MRIC.c (is - 1)) ∧
      (mriStep_StageERKFast env s is).2.stepper.tshift =
        env.tn + env.MRIC.c (is - 1) * env.h ∧
      (mriStep_StageERKFast env s is).2.stepper.tscale =
        (env.MRIC.c is - env.MRIC.c (is - 1)) * env.h := by
    unfold mriStep_StageERKFast
    cases env.pre_inner_evolve <;> cases env.post_inner_evolve <;>
      dsimp only <;> split_ifs <;> simp
  refine ⟨?_, hstep.2.1, hstep.2.2⟩
  intro k hk x
  rw [hstep.1]
  unfold mriStep_ComputeInnerForcing N_VLinearCombination
  dsimp only
  rw [if_pos hk, Finset.mul_sum]
  exact Finset.sum_congr rfl fun j _ => mul_assoc _ _ _

/-- Witness for C1: stage 1 of the validated table `tableMIS` in the run
`baseEnv` with `F[0] ≡ 1`, evaluating forcing vector 0 at component 0. -/
theorem stageERKFast_forcing_witness :
    (mriStep_StageERKFast baseEnv stateF 1).2.stepper.forcing 0 0 =
      (1 / (tableMIS.c 1 - tableMIS.c 0)) *
        ∑ j in Finset.range 1, tableMIS.G 0 1 j * stateF.F j 0 ∧
    (mriStep_StageERKFast baseEnv stateF 1).2.stepper.tshift =
      baseEnv.tn + tableMIS.c 0 * baseEnv.h ∧
    (mriStep_StageERKFast baseEnv stateF 1).2.stepper.tscale =
      (tableMIS.c 1 - tableMIS.c 0) * baseEnv.h := by
  obtain ⟨hf, hsh, hsc⟩ :=
    stageERKFast_forcing baseEnv stateF 1 tableMIS_check tableMIS_stagetype1
  exact ⟨hf 0 (by decide) 0, hsh, hsc⟩

/-- Claim C7: `mriStep_FullRHS` with mode `OTHER` computes the slow RHS into
the host scratch `tempv2` and leaves `F[0]` unchanged; modes `START` and
`END` store the slow RHS into `F[0]`; in every mode the output is
`f = f_s(t,y) + f_f(t,y)`; and any unknown mode returns the fatal
`ARK_RHSFUNC_FAIL`. -/
theorem fullrhs_modes (fs ff : ℚ → Vec → Int × Vec) (st : FullRhsState)
    (t : ℚ) (y f : Vec)
    (hfs : (fs t y).1 = 0) (hff : (ff t y).1 = ARK_SUCCESS) :
    ((mriStep_FullRHS fs ff st t y f ARK_FULLRHS_OTHER).1 = ARK_SUCCESS ∧
     (mriStep_FullRHS fs ff st t y f ARK_FULLRHS_OTHER).2.1.F0 = st.F0 ∧
     (mriStep_FullRHS fs ff st t y f ARK_FULLRHS_OTHER).2.1.tempv2 =
       (fs t y).2 ∧
     ∀ x, (mriStep_FullRHS fs ff st t y f ARK_FULLRHS_OTHER).2.2 x =
       (fs t y).2 x + (ff t y).2 x) ∧
    ((mriStep_FullRHS fs ff st t y f ARK_FULLRHS_START).1 = ARK_SUCCESS ∧
     (mriStep_FullRHS fs ff st t y f ARK_FULLRHS_START).2.1.F0 = (fs t y).2 ∧
     ∀ x, (mriStep_FullRHS fs ff st t y f ARK_FULLRHS_START).2.2 x =
       (fs t y).2 x + (ff t y).2 x) ∧
    ((mriStep_FullRHS fs ff st t y f ARK_FULLRHS_END).1 = ARK_SUCCESS ∧
     (mriStep_FullRHS fs ff st t y f ARK_FULLRHS_END).2.1.F0 = (fs t y).2 ∧
     ∀ x, (mriStep_FullRHS fs ff st t y f ARK_FULLRHS_END).2.2 x =
       (fs t y).2 x + (ff t y).2 x) ∧
    (∀ mode : Int, mode ≠ ARK_FULLRHS_START → mode ≠ ARK_FULLRHS_END →
      mode ≠ ARK_FULLRHS_OTHER →
      mriStep_FullRHS fs ff st t y f mode = (ARK_RHSFUNC_FAIL, st, f)) := by
  have hother : mriStep_FullRHS fs ff st t y f ARK_FULLRHS_OTHER =
      (ARK_SUCCESS, { st with tempv2 := (fs t y).2, nfs := st.nfs + 1 },
        fun x => (fs t y).2 x + (ff t y).2 x) := by
    rw [mriStep_FullRHS, if_neg (by decide), if_neg (by decide), if_pos rfl]
    dsimp only
    rw [if_neg (fun hc => hc hfs), if_neg (fun hc => hc hff)]
  have hstart : mriStep_FullRHS fs ff st t y f ARK_FULLRHS_START =
      (ARK_SUCCESS, { st with F0 := (fs t y).2, nfs := st.nfs + 1 },
        fun x => (fs t y).2 x + (ff t y).2 x) := by
    rw [mriStep_FullRHS, if_pos rfl]
    dsimp only
    rw [if_neg (fun hc => hc hfs), if_neg (fun hc => hc hff)]
  have hend : mriStep_FullRHS fs ff st t y f ARK_FULLRHS_END =
      (ARK_SUCCESS, { st with F0 := (fs t y).2, nfs := st.nfs + 1 },
        fun x => (fs t y).2 x + (ff t y).2 x) := by
    rw [mriStep_FullRHS, if_neg (by decide), if_pos rfl]
    dsimp only
    rw [if_neg (fun hc => hc hfs), if_neg (fun hc => hc hff)]
  refine ⟨?_, ?_, ?_, ?_⟩
  · rw [hother]
    exact ⟨rfl, rfl, rfl, fun x => rfl⟩
  · rw [hstart]
    exact ⟨rfl, rfl, fun x => rfl⟩
  · rw [hend]
    exact ⟨rfl, rfl, fun x => rfl⟩
  · intro mode h1 h2 h3
    rw [mriStep_FullRHS, if_neg h1, if_neg h2, if_neg h3]

/-- Witness for C7: the concrete RHS pair (`fsW ≡ 3`, `ffW ≡ 4`) from the
neutral state, with the unknown mode instantiated at 5. -/
theorem fullrhs_modes_witness :
    (mriStep_FullRHS fsW ffW rhsState0 0 zeroVec zeroVec
        ARK_FULLRHS_OTHER).1 = ARK_SUCCESS ∧
    (mriStep_FullRHS fsW ffW rhsState0 0 zeroVec zeroVec
        ARK_FULLRHS_OTHER).2.1.F0 = rhsState0.F0 ∧
    (mriStep_FullRHS fsW ffW rhsState0 0 zeroVec zeroVec
        ARK_FULLRHS_OTHER).2.2 0 =
      (fsW 0 zeroVec).2 0 + (ffW 0 zeroVec).2 0 ∧
    (mriStep_FullRHS fsW ffW rhsState0 0 zeroVec zeroVec
        ARK_FULLRHS_START).2.1.F0 = (fsW 0 zeroVec).2 ∧
    mriStep_FullRHS fsW ffW rhsState0 0 zeroVec zeroVec 5 =
      (ARK_RHSFUNC_FAIL, rhsState0, zeroVec) := by
  obtain ⟨hO, hS, hE, hU⟩ :=
    fullrhs_modes fsW ffW rhsState0 0 zeroVec zeroVec rfl rfl
  exact ⟨hO.1, hO.2.1, hO.2.2.2 0, hS.2.1,
    hU 5 (by decide) (by decide) (by decide)⟩
